import Mathlib

/-!
# UART serial driver (`src/main/drivers/serial_uart.c`)

A shallow embedding of the ring-buffer transport of the UART driver and the
properties of its index arithmetic.

Conventions of the embedding

* `uint32_t` values are natural numbers; every C addition and subtraction is
  written with `add32` / `sub32`, which wrap modulo `2^32`.
* `uint8_t` values are `Fin 256`; the driver only moves them around.
* A buffer pointer is the list of bytes of the storage it points to; an access
  outside that storage is undefined behaviour in C and makes the embedded
  function return `none`.
* Pointers that are only tested against `NULL` are `Option` values.
* `USE_DMA` (a preprocessor switch) is a boolean parameter of every function
  whose body depends on it.  `USE_HAL_DRIVER` only selects between two
  spellings of the same hardware access and is not a parameter.
* Values read from hardware registers (the DMA remaining-transfer counter) are
  parameters of the function that reads them.
* Routines of the driver that live in other files (`serialUART`,
  `uartReconfigure`, `uartTryStartTxDMA`) are parameters, collected in
  `Externals`.
* Stateful functions work on a `Machine`: the port descriptor plus the trace
  of the stores and of the calls the driver has made so far.
-/

namespace SerialUart

/-! ## Machine integers -/

/-- A byte, C type `uint8_t`. -/
abbrev uint8_t := Fin 256

/-- Addition of two `uint32_t` values. -/
def add32 (a b : Nat) : Nat := (a + b) % 4294967296

/-- Subtraction of two `uint32_t` values. -/
def sub32 (a b : Nat) : Nat := (a % 4294967296 + 4294967296 - b % 4294967296) % 4294967296

/-! ## Data model -/

/-- Device identities, `UARTDevice_e` of `serial_uart.h`. -/
inductive UARTDevice_e where
  | UARTDEV_1 | UARTDEV_2 | UARTDEV_3 | UARTDEV_4
  | UARTDEV_5 | UARTDEV_6 | UARTDEV_7 | UARTDEV_8
  deriving DecidableEq, Repr

/-- The fields of `serialPort_t` (declared in `drivers/serial.h`) that
`serial_uart.c` uses.  `mode`, `options`, the callback and its data are opaque
to the driver and kept as numbers. -/
structure serialPort_t where
  mode : Nat
  options : Nat
  baudRate : Nat
  rxBufferSize : Nat
  txBufferSize : Nat
  rxBuffer : List uint8_t
  txBuffer : List uint8_t
  rxBufferHead : Nat
  rxBufferTail : Nat
  txBufferHead : Nat
  txBufferTail : Nat
  rxCallback : Nat
  rxCallbackData : Nat
  deriving DecidableEq, Repr

/-- The fields of `uartPort_t` (`serial_uart.h`) that `serial_uart.c` uses.
The two DMA resources are pointers that the driver only tests against
`NULL`. -/
structure uartPort_t where
  port : serialPort_t
  rxDMAResource : Option Nat
  txDMAResource : Option Nat
  rxDMAPos : Nat
  txDMAEmpty : Bool
  deriving DecidableEq, Repr

/-- Scalar fields of the descriptor that the driver stores into. -/
inductive Field where
  | rxBufferHead | rxBufferTail | txBufferHead | txBufferTail
  | rxCallback | rxCallbackData | mode | baudRate | options
  | rxDMAPos | txDMAEmpty
  deriving DecidableEq, Repr

/-- The store `s->field = v`.  The boolean `txDMAEmpty` takes `v ≠ 0`. -/
def Field.assign : Field → Nat → uartPort_t → uartPort_t
  | .rxBufferHead, v, s => { s with port := { s.port with rxBufferHead := v } }
  | .rxBufferTail, v, s => { s with port := { s.port with rxBufferTail := v } }
  | .txBufferHead, v, s => { s with port := { s.port with txBufferHead := v } }
  | .txBufferTail, v, s => { s with port := { s.port with txBufferTail := v } }
  | .rxCallback, v, s => { s with port := { s.port with rxCallback := v } }
  | .rxCallbackData, v, s => { s with port := { s.port with rxCallbackData := v } }
  | .mode, v, s => { s with port := { s.port with mode := v } }
  | .baudRate, v, s => { s with port := { s.port with baudRate := v } }
  | .options, v, s => { s with port := { s.port with options := v } }
  | .rxDMAPos, v, s => { s with rxDMAPos := v }
  | .txDMAEmpty, v, s => { s with txDMAEmpty := decide (v ≠ 0) }

/-- What the driver does that is visible from outside a function: stores into
the descriptor and calls of routines defined elsewhere. -/
inductive Event where
  /-- The store `s->field = v`. -/
  | store (field : Field) (v : Nat)
  /-- The store `s->port.txBuffer[i] = ch`. -/
  | storeTxBuffer (i : Nat) (ch : uint8_t)
  /-- The call `uartReconfigure(s)`, with the descriptor as it is at the call. -/
  | uartReconfigure (s : uartPort_t)
  /-- The call `uartTryStartTxDMA(s)`, with the descriptor as it is at the call. -/
  | uartTryStartTxDMA (s : uartPort_t)
  /-- The hardware access `USART_ITConfig(s->USARTx, USART_IT_TXE, ENABLE)`
  (`__HAL_UART_ENABLE_IT(&s->Handle, UART_IT_TXE)` with the HAL driver). -/
  | enableTXE
  deriving DecidableEq, Repr

/-- Routines of the driver that are defined in other files. -/
structure Externals where
  /-- The device lookup `serialUART(device, baudRate, mode, options)`: `none`
  is the `NULL` pointer, `some s` the port it points to. -/
  serialUART : UARTDevice_e → Nat → Nat → Nat → Option uartPort_t
  /-- The effect of `uartReconfigure(s)` on the descriptor. -/
  uartReconfigure : uartPort_t → uartPort_t
  /-- The effect of `uartTryStartTxDMA(s)` on the descriptor. -/
  uartTryStartTxDMA : uartPort_t → uartPort_t

/-- A port descriptor together with the trace of what has been done to it. -/
structure Machine where
  s : uartPort_t
  trace : List Event
  deriving DecidableEq, Repr

/-- Perform and record the store `s->field = v`. -/
def Machine.store (m : Machine) (field : Field) (v : Nat) : Machine :=
  { s := field.assign v m.s, trace := m.trace ++ [Event.store field v] }

/-- Perform and record the store `s->port.txBuffer[i] = ch`. -/
def Machine.storeTxBuffer (m : Machine) (i : Nat) (ch : uint8_t) : Machine :=
  { s := { m.s with port := { m.s.port with txBuffer := m.s.port.txBuffer.set i ch } },
    trace := m.trace ++ [Event.storeTxBuffer i ch] }

/-- Perform and record the call `uartReconfigure(s)`. -/
def Machine.callReconfigure (E : Externals) (m : Machine) : Machine :=
  { s := E.uartReconfigure m.s, trace := m.trace ++ [Event.uartReconfigure m.s] }

/-- Perform and record the call `uartTryStartTxDMA(s)`. -/
def Machine.callTryStartTxDMA (E : Externals) (m : Machine) : Machine :=
  { s := E.uartTryStartTxDMA m.s, trace := m.trace ++ [Event.uartTryStartTxDMA m.s] }

/-- Record the enabling of the transmit-register-empty interrupt. -/
def Machine.enableTXE (m : Machine) : Machine :=
  { m with trace := m.trace ++ [Event.enableTXE] }

/-- The test `if (s->rxDMAResource)` under `#ifdef USE_DMA`. -/
def usesRxDMA (USE_DMA : Bool) (s : uartPort_t) : Bool :=
  USE_DMA && s.rxDMAResource.isSome

/-- The test `if (s->txDMAResource)` under `#ifdef USE_DMA`. -/
def usesTxDMA (USE_DMA : Bool) (s : uartPort_t) : Bool :=
  USE_DMA && s.txDMAResource.isSome

/-! ## The driver -/

/-- Embedding of `uartOpen`.  The result is the returned pointer (`none` for
`NULL`, otherwise the port it points to) and the trace of the call. -/
def uartOpen (E : Externals) (USE_DMA : Bool) (device : UARTDevice_e)
    (rxCallback rxCallbackData baudRate mode options : Nat) :
    Option uartPort_t × List Event :=
  match E.serialUART device baudRate mode options with
  | none => (none, [])
  | some s =>
    let m0 : Machine := { s := s, trace := [] }
    let m1 := if USE_DMA then m0.store Field.txDMAEmpty 1 else m0
    let m2 := (m1.store Field.rxBufferTail 0).store Field.rxBufferHead 0
    let m3 := (m2.store Field.txBufferTail 0).store Field.txBufferHead 0
    let m4 := m3.store Field.rxCallback rxCallback
    let m5 := m4.store Field.rxCallbackData rxCallbackData
    let m6 := m5.store Field.mode mode
    let m7 := m6.store Field.baudRate baudRate
    let m8 := m7.store Field.options options
    let m9 := m8.callReconfigure E
    (some m9.s, m9.trace)

/-- Embedding of `uartSetBaudRate`. -/
def uartSetBaudRate (E : Externals) (m : Machine) (baudRate : Nat) : Machine :=
  (m.store Field.baudRate baudRate).callReconfigure E

/-- Embedding of `uartSetMode`. -/
def uartSetMode (E : Externals) (m : Machine) (mode : Nat) : Machine :=
  (m.store Field.mode mode).callReconfigure E

/-- Embedding of `uartTotalRxBytesWaiting`.  `rxDMAHead` is the value the DMA
remaining-transfer counter of the receive stream holds when it is read. -/
def uartTotalRxBytesWaiting (USE_DMA : Bool) (rxDMAHead : Nat) (s : uartPort_t) : Nat :=
  if usesRxDMA USE_DMA s then
    if rxDMAHead ≥ s.rxDMAPos then
      sub32 rxDMAHead s.rxDMAPos
    else
      sub32 (add32 s.port.rxBufferSize rxDMAHead) s.rxDMAPos
  else if s.port.rxBufferHead ≥ s.port.rxBufferTail then
    sub32 s.port.rxBufferHead s.port.rxBufferTail
  else
    sub32 (add32 s.port.rxBufferSize s.port.rxBufferHead) s.port.rxBufferTail

/-- The local `bytesUsed` of `uartTotalTxBytesFree` as it is after the first
`if`, before the DMA part. -/
def txBytesUsed (s : uartPort_t) : Nat :=
  if s.port.txBufferHead ≥ s.port.txBufferTail then
    sub32 s.port.txBufferHead s.port.txBufferTail
  else
    sub32 (add32 s.port.txBufferSize s.port.txBufferHead) s.port.txBufferTail

/-- Embedding of `uartTotalTxBytesFree`.  `txDMACounter` is the value the DMA
remaining-transfer counter of the transmit stream holds when it is read. -/
def uartTotalTxBytesFree (USE_DMA : Bool) (txDMACounter : Nat) (s : uartPort_t) : Nat :=
  let bytesUsed := txBytesUsed s
  if usesTxDMA USE_DMA s then
    let bytesUsed := add32 bytesUsed txDMACounter
    if bytesUsed ≥ sub32 s.port.txBufferSize 1 then
      0
    else
      sub32 (sub32 s.port.txBufferSize 1) bytesUsed
  else
    sub32 (sub32 s.port.txBufferSize 1) bytesUsed

/-- Embedding of `isUartTransmitBufferEmpty`. -/
def isUartTransmitBufferEmpty (USE_DMA : Bool) (s : uartPort_t) : Bool :=
  if usesTxDMA USE_DMA s then
    s.txDMAEmpty
  else
    decide (s.port.txBufferTail = s.port.txBufferHead)

/-- Embedding of `uartRead`: the byte returned and the machine afterwards, or
`none` when the load is outside the receive storage. -/
def uartRead (USE_DMA : Bool) (m : Machine) : Option (uint8_t × Machine) :=
  if usesRxDMA USE_DMA m.s then
    match m.s.port.rxBuffer[sub32 m.s.port.rxBufferSize m.s.rxDMAPos]? with
    | none => none
    | some ch =>
      let m1 := m.store Field.rxDMAPos (sub32 m.s.rxDMAPos 1)
      if m1.s.rxDMAPos = 0 then
        some (ch, m1.store Field.rxDMAPos m1.s.port.rxBufferSize)
      else
        some (ch, m1)
  else
    match m.s.port.rxBuffer[m.s.port.rxBufferTail]? with
    | none => none
    | some ch =>
      if add32 m.s.port.rxBufferTail 1 ≥ m.s.port.rxBufferSize then
        some (ch, m.store Field.rxBufferTail 0)
      else
        some (ch, m.store Field.rxBufferTail (add32 m.s.port.rxBufferTail 1))

/-- Embedding of `uartWrite`: the machine afterwards, or `none` when the store
is outside the transmit storage. -/
def uartWrite (E : Externals) (USE_DMA : Bool) (m : Machine) (ch : uint8_t) : Option Machine :=
  if m.s.port.txBufferHead < m.s.port.txBuffer.length then
    let m1 := m.storeTxBuffer m.s.port.txBufferHead ch
    let m2 :=
      if add32 m1.s.port.txBufferHead 1 ≥ m1.s.port.txBufferSize then
        m1.store Field.txBufferHead 0
      else
        m1.store Field.txBufferHead (add32 m1.s.port.txBufferHead 1)
    if usesTxDMA USE_DMA m2.s then
      some (m2.callTryStartTxDMA E)
    else
      some m2.enableTXE
  else
    none

/-! ## Specification-side definitions -/

/-- The spec's occupied count `(head − tail) mod capacity`, with the
mathematical remainder, which is never negative. -/
def wrapSub (capacity head tail : Nat) : Nat :=
  (((head : Int) - (tail : Int)) % (capacity : Int)).toNat

/-- A descriptor with the given transmit and receive rings and DMA state, for
concrete evaluations.  The fields no index computation looks at are zero. -/
def mkPort (rxSize : Nat) (rxBuf : List uint8_t) (rxHead rxTail : Nat)
    (txSize : Nat) (txBuf : List uint8_t) (txHead txTail : Nat)
    (rxDMA txDMA : Option Nat) (rxDMAPos : Nat) (txDMAEmpty : Bool) : uartPort_t :=
  { port :=
      { mode := 0, options := 0, baudRate := 0,
        rxBufferSize := rxSize, txBufferSize := txSize,
        rxBuffer := rxBuf, txBuffer := txBuf,
        rxBufferHead := rxHead, rxBufferTail := rxTail,
        txBufferHead := txHead, txBufferTail := txTail,
        rxCallback := 0, rxCallbackData := 0 },
    rxDMAResource := rxDMA, txDMAResource := txDMA,
    rxDMAPos := rxDMAPos, txDMAEmpty := txDMAEmpty }

/-! ## One ring buffer driven by `uartWrite` and `uartRead` -/

/-- One ring buffer: capacity, storage, head and tail. -/
structure Ring where
  capacity : Nat
  storage : List uint8_t
  head : Nat
  tail : Nat
  deriving DecidableEq, Repr

/-- The ring seen as the transmit buffer of a port without DMA. -/
def Ring.asTx (r : Ring) : Machine :=
  { s := mkPort 0 [] 0 0 r.capacity r.storage r.head r.tail none none 0 false, trace := [] }

/-- The ring seen as the receive buffer of a port without DMA. -/
def Ring.asRx (r : Ring) : Machine :=
  { s := mkPort r.capacity r.storage r.head r.tail 0 [] 0 0 none none 0 false, trace := [] }

/-- The transmit buffer of a port, as a ring. -/
def Ring.ofTx (m : Machine) : Ring :=
  { capacity := m.s.port.txBufferSize, storage := m.s.port.txBuffer,
    head := m.s.port.txBufferHead, tail := m.s.port.txBufferTail }

/-- The receive buffer of a port, as a ring. -/
def Ring.ofRx (m : Machine) : Ring :=
  { capacity := m.s.port.rxBufferSize, storage := m.s.port.rxBuffer,
    head := m.s.port.rxBufferHead, tail := m.s.port.rxBufferTail }

/-- Push: the step `uartWrite` makes on its buffer. -/
def Ring.push (E : Externals) (USE_DMA : Bool) (r : Ring) (ch : uint8_t) : Option Ring :=
  (uartWrite E USE_DMA r.asTx ch).map Ring.ofTx

/-- Pop: the step `uartRead` makes on its buffer in interrupt mode. -/
def Ring.pop (USE_DMA : Bool) (r : Ring) : Option (uint8_t × Ring) :=
  (uartRead USE_DMA r.asRx).map (fun p => (p.1, Ring.ofRx p.2))

/-- Occupied bytes of the ring, as `uartTotalRxBytesWaiting` counts them. -/
def Ring.occupied (USE_DMA : Bool) (r : Ring) : Nat :=
  uartTotalRxBytesWaiting USE_DMA 0 r.asRx.s

/-- A caller's operation on the ring. -/
inductive Op where
  | push (ch : uint8_t)
  | pop
  deriving DecidableEq, Repr

/-- Run a sequence of operations; the result is the final ring and the popped
bytes in the order they were popped. -/
def Ring.run (E : Externals) (USE_DMA : Bool) : Ring → List Op → Option (Ring × List uint8_t)
  | r, [] => some (r, [])
  | r, Op.push ch :: ops =>
    match r.push E USE_DMA ch with
    | none => none
    | some r1 => Ring.run E USE_DMA r1 ops
  | r, Op.pop :: ops =>
    match r.pop USE_DMA with
    | none => none
    | some (ch, r1) =>
      match Ring.run E USE_DMA r1 ops with
      | none => none
      | some (r2, out) => some (r2, ch :: out)

/-- The bytes a sequence of operations pushes, in order. -/
def pushedBytes : List Op → List uint8_t
  | [] => []
  | Op.push ch :: ops => ch :: pushedBytes ops
  | Op.pop :: ops => pushedBytes ops

/-- The number of pops in a sequence of operations. -/
def popCount : List Op → Nat
  | [] => 0
  | Op.push _ :: ops => popCount ops
  | Op.pop :: ops => popCount ops + 1

/-- The caller's contract: every push happens with fewer than `capacity - 1`
bytes occupied and every pop with at least one byte occupied.  Nothing is asked
of what follows an operation that does not return. -/
def Ring.admissible (E : Externals) (USE_DMA : Bool) : Ring → List Op → Bool
  | _, [] => true
  | r, Op.push ch :: ops =>
    decide (r.occupied USE_DMA < r.capacity - 1) &&
      (match r.push E USE_DMA ch with
       | none => true
       | some r1 => Ring.admissible E USE_DMA r1 ops)
  | r, Op.pop :: ops =>
    decide (1 ≤ r.occupied USE_DMA) &&
      (match r.pop USE_DMA with
       | none => true
       | some (_, r1) => Ring.admissible E USE_DMA r1 ops)

/-- Index of the `i`-th occupied slot, counted from the tail. -/
def Ring.slot (r : Ring) (i : Nat) : Nat :=
  if r.tail + i < r.capacity then r.tail + i else r.tail + i - r.capacity

/-- The queued bytes, oldest first. -/
def Ring.contents (USE_DMA : Bool) (r : Ring) : List uint8_t :=
  (List.range (r.occupied USE_DMA)).map (fun i => r.storage.getD (r.slot i) 0)

/-- Indices and storage are consistent with the capacity. -/
def Ring.WF (r : Ring) : Prop :=
  r.capacity < 4294967296 ∧ r.storage.length = r.capacity ∧
    r.head < r.capacity ∧ r.tail < r.capacity

/-- Externals that do nothing, for concrete evaluations: every lookup fails
and the two routines leave the descriptor as it is. -/
def inertExternals : Externals :=
  { serialUART := fun _ _ _ _ => none
    uartReconfigure := fun s => s
    uartTryStartTxDMA := fun s => s }

/-- An empty ring of capacity 16 over zeroed storage. -/
def ring16 : Ring :=
  { capacity := 16, storage := List.replicate 16 0, head := 0, tail := 0 }

/-- Scenario A of the spec: push `'A'..'O'`, pop once, push `'P'`, pop 15
times. -/
def scenarioA : List Op :=
  (List.range 15).map (fun i => Op.push (Fin.ofNat (65 + i))) ++ [Op.pop, Op.push 80] ++
    List.replicate 15 Op.pop

/-- A port without DMA whose transmit ring of size 16 holds `head` and `tail`. -/
def txPort16 (head tail : Nat) : uartPort_t :=
  mkPort 0 [] 0 0 16 (List.replicate 16 0) head tail none none 0 false

/-- A port with transmit DMA whose transmit ring has the given size and
indices (without storage: only the accounting is evaluated on it). -/
def txDmaPort (size head tail : Nat) : uartPort_t :=
  mkPort 0 [] 0 0 size [] head tail none (some 1) 0 true

/-- A port without DMA whose receive ring of size 16 holds `head` and `tail`. -/
def rxPort16 (head tail : Nat) : uartPort_t :=
  mkPort 16 (List.replicate 16 0) head tail 0 [] 0 0 none none 0 false

/-- A port with receive DMA over 16 bytes of storage holding `0, 1, .., 15`,
with the given cursor. -/
def rxDmaPort16 (rxDMAPos : Nat) : uartPort_t :=
  mkPort 16 ((List.range 16).map Fin.ofNat) 0 0 0 [] 0 0 (some 1) none rxDMAPos false

/-- The stores that the body of `uartOpen` makes after a successful lookup, in
the order of the source. -/
def uartOpenStores (USE_DMA : Bool) (rxCallback rxCallbackData baudRate mode options : Nat) :
    List Event :=
  (if USE_DMA then [Event.store Field.txDMAEmpty 1] else []) ++
    [Event.store Field.rxBufferTail 0, Event.store Field.rxBufferHead 0,
     Event.store Field.txBufferTail 0, Event.store Field.txBufferHead 0,
     Event.store Field.rxCallback rxCallback, Event.store Field.rxCallbackData rxCallbackData,
     Event.store Field.mode mode, Event.store Field.baudRate baudRate,
     Event.store Field.options options]

/-- The event is a store into the descriptor. -/
def Event.isStore : Event → Bool
  | Event.store _ _ => true
  | Event.storeTxBuffer _ _ => true
  | _ => false

/-- The event is a call of `uartReconfigure`. -/
def Event.isReconfigure : Event → Bool
  | Event.uartReconfigure _ => true
  | _ => false

/-- Externals that know one device, for concrete evaluations: the lookup
finds a port for `UARTDEV_1` only (a port without DMA with stale indices), and
the two routines leave the descriptor as it is. -/
def oneDeviceExternals : Externals :=
  { serialUART := fun device _ _ _ =>
      if device = UARTDevice_e.UARTDEV_1 then
        some (mkPort 16 (List.replicate 16 0) 5 9 16 (List.replicate 16 0) 7 3 none none 0 false)
      else none
    uartReconfigure := fun s => s
    uartTryStartTxDMA := fun s => s }

/-- `n` consecutive calls of `uartRead`: the bytes returned, in order, and the
machine afterwards. -/
def uartReadN (USE_DMA : Bool) : Nat → Machine → Option (List uint8_t × Machine)
  | 0, m => some ([], m)
  | n + 1, m =>
    match uartRead USE_DMA m with
    | none => none
    | some (ch, m1) =>
      match uartReadN USE_DMA n m1 with
      | none => none
      | some (chs, m2) => some (ch :: chs, m2)

/-- The storage index that the DMA-mode `uartRead` loads from in the state
reached after `i` reads: the index expression `rxBufferSize - rxDMAPos` of the
source, evaluated there. -/
def dmaReadIndex (USE_DMA : Bool) (m : Machine) (i : Nat) : Option Nat :=
  (uartReadN USE_DMA i m).map (fun p => sub32 p.2.s.port.rxBufferSize p.2.s.rxDMAPos)

/-! ## Definitions for the write, the frame and the reconfiguration properties -/

/-- The descriptor as the buffer update of `uartWrite` leaves it, written out:
`ch` stored at index `txBufferHead`, then `txBufferHead` advanced by one, back
to 0 at `txBufferSize`. -/
def txPushed (s : uartPort_t) (ch : uint8_t) : uartPort_t :=
  { s with
    port :=
      { s.port with
        txBuffer := s.port.txBuffer.set s.port.txBufferHead ch
        txBufferHead :=
          if s.port.txBufferSize ≤ s.port.txBufferHead + 1 then 0
          else s.port.txBufferHead + 1 } }

/-- A port without DMA whose transmit ring of size 16 holds `'a'..'p'` (97 to
112) in its storage, with the given indices. -/
def txPort16Letters (head tail : Nat) : uartPort_t :=
  mkPort 0 [] 0 0 16 ((List.range 16).map (fun i => Fin.ofNat (97 + i))) head tail
    none none 0 false

/-- A call of a driver function that takes the port through a pointer to
`const` and has no store and no call in its body: the value it returns,
and the machine as the call leaves it, which is the machine it was given. -/
def Machine.query {α : Type} (m : Machine) (f : uartPort_t → α) : α × Machine :=
  (f m.s, m)

/-- A port without DMA with distinct values in every field that the frame
properties talk about. -/
def busyPort : uartPort_t :=
  mkPort 16 ((List.range 16).map (fun i => Fin.ofNat (65 + i))) 9 15
    16 ((List.range 16).map (fun i => Fin.ofNat (97 + i))) 15 4 none none 7 false

/-- The port `busyPort` with both DMA resources present. -/
def busyDmaPort : uartPort_t :=
  { busyPort with rxDMAResource := some 1, txDMAResource := some 2 }

/-- No store into the descriptor comes before the first call of
`uartReconfigure` in the trace. -/
def noStoreBeforeReconfigure : List Event → Bool
  | [] => true
  | Event.uartReconfigure _ :: _ => true
  | e :: rest => !e.isStore && noStoreBeforeReconfigure rest

/-- A caller's operation on a port. -/
inductive PortOp where
  | write (ch : uint8_t)
  | read
  deriving DecidableEq, Repr

/-- Run a sequence of `uartWrite` and `uartRead` calls on a port; `none` as
soon as one of them goes outside the storage. -/
def runPort (E : Externals) (USE_DMA : Bool) : Machine → List PortOp → Option Machine
  | m, [] => some m
  | m, PortOp.write ch :: ops =>
    match uartWrite E USE_DMA m ch with
    | none => none
    | some m1 => runPort E USE_DMA m1 ops
  | m, PortOp.read :: ops =>
    match uartRead USE_DMA m with
    | none => none
    | some (_, m1) => runPort E USE_DMA m1 ops

/-- An assumption on `uartTryStartTxDMA`, which is defined in another file: it
leaves alone what the foreground owns, that is `txBufferHead`, the sizes and
storage extents, `rxBufferTail` and the two DMA resources. -/
def Externals.tryStartKeepsForeground (E : Externals) : Prop :=
  ∀ s : uartPort_t,
    (E.uartTryStartTxDMA s).port.txBufferHead = s.port.txBufferHead ∧
    (E.uartTryStartTxDMA s).port.txBufferSize = s.port.txBufferSize ∧
    (E.uartTryStartTxDMA s).port.txBuffer.length = s.port.txBuffer.length ∧
    (E.uartTryStartTxDMA s).port.rxBufferTail = s.port.rxBufferTail ∧
    (E.uartTryStartTxDMA s).port.rxBufferSize = s.port.rxBufferSize ∧
    (E.uartTryStartTxDMA s).port.rxBuffer.length = s.port.rxBuffer.length ∧
    (E.uartTryStartTxDMA s).rxDMAResource = s.rxDMAResource ∧
    (E.uartTryStartTxDMA s).txDMAResource = s.txDMAResource

/-- The indices that the foreground advances are inside their rings, the rings
inside their storage, the sizes are `uint32_t` values, and the receive side is
interrupt driven. -/
def ForegroundInBounds (USE_DMA : Bool) (m : Machine) : Prop :=
  m.s.port.txBufferHead < m.s.port.txBufferSize ∧
  m.s.port.txBufferSize ≤ m.s.port.txBuffer.length ∧
  m.s.port.txBufferSize < 4294967296 ∧
  m.s.port.rxBufferTail < m.s.port.rxBufferSize ∧
  m.s.port.rxBufferSize ≤ m.s.port.rxBuffer.length ∧
  m.s.port.rxBufferSize < 4294967296 ∧
  usesRxDMA USE_DMA m.s = false

/-- Twenty writes followed by twenty reads and five more writes: more than the
capacity of a ring of 16 in each direction. -/
def fortyFiveOps : List PortOp :=
  (List.range 20).map (fun i => PortOp.write (Fin.ofNat i)) ++ List.replicate 20 PortOp.read ++
    (List.range 5).map (fun i => PortOp.write (Fin.ofNat i))

/-- The event is a call of `uartTryStartTxDMA`. -/
def Event.isTryStartTxDMA : Event → Bool
  | Event.uartTryStartTxDMA _ => true
  | _ => false

/-- The event is the enabling of the transmit-register-empty interrupt. -/
def Event.isEnableTXE : Event → Bool
  | Event.enableTXE => true
  | _ => false

/-- A port with transmit DMA, idle, whose transmit ring of size 16 has both
indices at 5. -/
def idleTxDmaPort16 : uartPort_t :=
  mkPort 0 [] 0 0 16 (List.replicate 16 0) 5 5 none (some 1) 0 true

/-- The spec's mask rule for the occupied count, for comparison with the
compare-and-add rule of the source: `(head - tail) & (capacity - 1)`, both
subtractions in 32-bit unsigned arithmetic. -/
def maskedOccupied (capacity head tail : Nat) : Nat :=
  sub32 head tail &&& sub32 capacity 1

/-- A port without DMA whose rings have size 12, which is not a power of
two. -/
def port12 : uartPort_t :=
  mkPort 12 (List.replicate 12 0) 0 0 12 (List.replicate 12 0) 0 0 none none 0 false

/-- An assumption on `uartReconfigure`, which is defined in another file: it
leaves the four buffer indices and `txDMAEmpty` as they are. -/
def Externals.reconfigureKeepsQueues (E : Externals) : Prop :=
  ∀ s : uartPort_t,
    (E.uartReconfigure s).port.rxBufferHead = s.port.rxBufferHead ∧
    (E.uartReconfigure s).port.rxBufferTail = s.port.rxBufferTail ∧
    (E.uartReconfigure s).port.txBufferHead = s.port.txBufferHead ∧
    (E.uartReconfigure s).port.txBufferTail = s.port.txBufferTail ∧
    (E.uartReconfigure s).txDMAEmpty = s.txDMAEmpty

/-! ## Lemmas on the index arithmetic -/

theorem wrapSub_eq (n h t : Nat) (h1 : t < h + n) (h2 : h < t + n) :
    wrapSub n h t = if t ≤ h then h - t else n + h - t := by
  unfold wrapSub
  split
  · rename_i hle
    have e : ((h : Int) - (t : Int)) % (n : Int) = (h : Int) - (t : Int) :=
      Int.emod_eq_of_lt (by omega) (by omega)
    rw [e]; omega
  · rename_i hlt
    have e : ((h : Int) - (t : Int)) % (n : Int) = (h : Int) - (t : Int) + (n : Int) := by
      rw [← Int.add_emod_self]
      exact Int.emod_eq_of_lt (by omega) (by omega)
    rw [e]; omega

theorem txBytesUsed_eq (s : uartPort_t) (h32 : s.port.txBufferSize < 4294967296)
    (hh : s.port.txBufferHead < s.port.txBufferSize)
    (ht : s.port.txBufferTail < s.port.txBufferSize) :
    txBytesUsed s = wrapSub s.port.txBufferSize s.port.txBufferHead s.port.txBufferTail ∧
      txBytesUsed s ≤ s.port.txBufferSize - 1 := by
  rw [wrapSub_eq _ _ _ (by omega) (by omega)]
  unfold txBytesUsed
  simp only [sub32, add32, ge_iff_le]
  constructor <;> split <;> omega

/-! ## Lemmas on the ring -/

theorem Ring.push_eq (E : Externals) (d : Bool) (r : Ring) (ch : uint8_t) (h : r.WF) :
    r.push E d ch = some { r with storage := r.storage.set r.head ch,
                                  head := if r.capacity ≤ r.head + 1 then 0 else r.head + 1 } := by
  obtain ⟨h32, hlen, hh, ht⟩ := h
  have hl : r.head < r.storage.length := by omega
  have e : add32 r.head 1 = r.head + 1 := by simp only [add32]; omega
  simp only [Ring.push, uartWrite, Ring.asTx, mkPort, Machine.storeTxBuffer, Machine.store,
    Field.assign, usesTxDMA, Machine.enableTXE, Option.isSome_none, Bool.and_false, hl, e,
    ge_iff_le, if_true, Bool.false_eq_true, if_false]
  split <;> simp [Ring.ofTx]

theorem Ring.pop_eq (d : Bool) (r : Ring) (h : r.WF) :
    r.pop d = some (r.storage.getD r.tail 0,
      { r with tail := if r.capacity ≤ r.tail + 1 then 0 else r.tail + 1 }) := by
  obtain ⟨h32, hlen, hh, ht⟩ := h
  have hl : r.tail < r.storage.length := by omega
  have e : add32 r.tail 1 = r.tail + 1 := by simp only [add32]; omega
  have g : r.storage[r.tail]? = some (r.storage.getD r.tail 0) := by
    simp [List.getD_eq_getElem?_getD, List.getElem?_eq_getElem hl]
  simp only [Ring.pop, uartRead, Ring.asRx, mkPort, Machine.store, Field.assign, usesRxDMA,
    Option.isSome_none, Bool.and_false, g, e, ge_iff_le, Bool.false_eq_true, if_false]
  split <;> simp [Ring.ofRx]

theorem Ring.occupied_eq (d : Bool) (r : Ring) (h : r.WF) :
    r.occupied d = if r.tail ≤ r.head then r.head - r.tail else r.capacity + r.head - r.tail := by
  obtain ⟨h32, hlen, hh, ht⟩ := h
  simp only [Ring.occupied, uartTotalRxBytesWaiting, Ring.asRx, mkPort, usesRxDMA,
    Option.isSome_none, Bool.and_false, sub32, add32, ge_iff_le, Bool.false_eq_true, if_false]
  split_ifs <;> omega

theorem Ring.contents_push (d : Bool) (r : Ring) (ch : uint8_t) (h : r.WF)
    (hocc : r.occupied d < r.capacity - 1) :
    let r1 : Ring := { r with storage := r.storage.set r.head ch,
                              head := if r.capacity ≤ r.head + 1 then 0 else r.head + 1 }
    r1.WF ∧ r1.contents d = r.contents d ++ [ch] := by
  intro r1
  have hw := h
  obtain ⟨h32, hlen, hh, ht⟩ := h
  have ho := Ring.occupied_eq d r hw
  have hw1 : r1.WF := by
    refine ⟨h32, by simp [r1, hlen], ?_, ht⟩
    show (if r.capacity ≤ r.head + 1 then 0 else r.head + 1) < r.capacity
    split <;> omega
  have ho1 : r1.occupied d = r.occupied d + 1 := by
    rw [Ring.occupied_eq d r1 hw1, ho]
    show (if r.tail ≤ (if r.capacity ≤ r.head + 1 then 0 else r.head + 1)
          then (if r.capacity ≤ r.head + 1 then 0 else r.head + 1) - r.tail
          else r.capacity + (if r.capacity ≤ r.head + 1 then 0 else r.head + 1) - r.tail) = _
    rw [ho] at hocc
    split_ifs at hocc ⊢ <;> omega
  refine ⟨hw1, ?_⟩
  unfold Ring.contents
  rw [ho1, List.range_succ, List.map_append]
  congr 1
  · apply List.map_congr_left
    intro i hi
    have hi : i < r.occupied d := List.mem_range.mp hi
    have hne : r.head ≠ r.slot i := by
      rw [ho] at hi
      unfold Ring.slot
      split_ifs at hi ⊢ <;> omega
    show (r.storage.set r.head ch).getD (r.slot i) 0 = r.storage.getD (r.slot i) 0
    simp [List.getD_eq_getElem?_getD, List.getElem?_set_ne hne]
  · have hs : r.slot (r.occupied d) = r.head := by
      rw [ho]
      unfold Ring.slot
      split_ifs <;> omega
    show [(r.storage.set r.head ch).getD (r.slot (r.occupied d)) 0] = [ch]
    rw [hs]
    simp [List.getD_eq_getElem?_getD, List.getElem?_set_self, hlen, hh]

theorem Ring.contents_pop (d : Bool) (r : Ring) (h : r.WF) (hocc : 1 ≤ r.occupied d) :
    let r1 : Ring := { r with tail := if r.capacity ≤ r.tail + 1 then 0 else r.tail + 1 }
    r1.WF ∧ r.contents d = r.storage.getD r.tail 0 :: r1.contents d := by
  intro r1
  have hw := h
  obtain ⟨h32, hlen, hh, ht⟩ := h
  have ho := Ring.occupied_eq d r hw
  have hw1 : r1.WF := by
    refine ⟨h32, hlen, hh, ?_⟩
    show (if r.capacity ≤ r.tail + 1 then 0 else r.tail + 1) < r.capacity
    split <;> omega
  have ho1 : r.occupied d = r1.occupied d + 1 := by
    rw [Ring.occupied_eq d r1 hw1, ho]
    show _ = (if (if r.capacity ≤ r.tail + 1 then 0 else r.tail + 1) ≤ r.head
          then r.head - (if r.capacity ≤ r.tail + 1 then 0 else r.tail + 1)
          else r.capacity + r.head - (if r.capacity ≤ r.tail + 1 then 0 else r.tail + 1)) + 1
    rw [ho] at hocc
    split_ifs at hocc ⊢ <;> omega
  refine ⟨hw1, ?_⟩
  unfold Ring.contents
  rw [ho1, List.range_succ_eq_map, List.map_cons, List.map_map]
  congr 1
  · have hs : r.slot 0 = r.tail := by
      unfold Ring.slot
      split_ifs <;> omega
    rw [hs]
  · apply List.map_congr_left
    intro i hi
    have hi : i < r1.occupied d := List.mem_range.mp hi
    have hs : r.slot (i + 1) = r1.slot i := by
      rw [Ring.occupied_eq d r1 hw1] at hi
      show (if r.tail + (i + 1) < r.capacity then r.tail + (i + 1)
            else r.tail + (i + 1) - r.capacity) =
           (if (if r.capacity ≤ r.tail + 1 then 0 else r.tail + 1) + i < r.capacity
            then (if r.capacity ≤ r.tail + 1 then 0 else r.tail + 1) + i
            else (if r.capacity ≤ r.tail + 1 then 0 else r.tail + 1) + i - r.capacity)
      have hi1 : i < (if (if r.capacity ≤ r.tail + 1 then 0 else r.tail + 1) ≤ r.head
          then r.head - (if r.capacity ≤ r.tail + 1 then 0 else r.tail + 1)
          else r.capacity + r.head - (if r.capacity ≤ r.tail + 1 then 0 else r.tail + 1)) := hi
      split_ifs at hi1 ⊢ <;> omega
    show r.storage.getD (r.slot (i + 1)) 0 = r.storage.getD (r1.slot i) 0
    rw [hs]

theorem Ring.run_contents (E : Externals) (d : Bool) (ops : List Op) :
    ∀ r : Ring, r.WF → r.admissible E d ops = true →
      ∃ r1 out, Ring.run E d r ops = some (r1, out) ∧ r1.WF ∧ out.length = popCount ops ∧
        r.contents d ++ pushedBytes ops = out ++ r1.contents d := by
  induction ops with
  | nil =>
    intro r hw _
    exact ⟨r, [], rfl, hw, rfl, by simp [pushedBytes]⟩
  | cons op ops ih =>
    intro r hw hadm
    cases op with
    | push ch =>
      simp only [Ring.admissible, Ring.push_eq E d r ch hw, Bool.and_eq_true,
        decide_eq_true_eq] at hadm
      obtain ⟨hw1, hc⟩ := Ring.contents_push d r ch hw hadm.1
      obtain ⟨r2, out, hrun, hw2, hlen, hcont⟩ := ih _ hw1 hadm.2
      refine ⟨r2, out, ?_, hw2, by simpa [popCount] using hlen, ?_⟩
      · simp only [Ring.run, Ring.push_eq E d r ch hw, hrun]
      · rw [← hcont, hc]
        simp [pushedBytes]
    | pop =>
      simp only [Ring.admissible, Ring.pop_eq d r hw, Bool.and_eq_true,
        decide_eq_true_eq] at hadm
      obtain ⟨hw1, hc⟩ := Ring.contents_pop d r hw hadm.1
      obtain ⟨r2, out, hrun, hw2, hlen, hcont⟩ := ih _ hw1 hadm.2
      refine ⟨r2, r.storage.getD r.tail 0 :: out, ?_, hw2, by simp [popCount, hlen], ?_⟩
      · simp only [Ring.run, Ring.pop_eq d r hw, hrun]
      · rw [hc]
        simp only [pushedBytes, List.cons_append]
        rw [hcont]

/-! ## Lemmas on the DMA-mode read -/

theorem uartRead_dma_eq (d : Bool) (m : Machine) (hdma : usesRxDMA d m.s = true)
    (h32 : m.s.port.rxBufferSize < 4294967296)
    (hlen : m.s.port.rxBufferSize ≤ m.s.port.rxBuffer.length)
    (h1 : 1 ≤ m.s.rxDMAPos) (h2 : m.s.rxDMAPos ≤ m.s.port.rxBufferSize) :
    ∃ tr : List Event,
      uartRead d m =
        some (m.s.port.rxBuffer.getD (m.s.port.rxBufferSize - m.s.rxDMAPos) 0,
          { s := { m.s with rxDMAPos := if m.s.rxDMAPos = 1 then m.s.port.rxBufferSize
                                        else m.s.rxDMAPos - 1 },
            trace := tr }) := by
  have e1 : sub32 m.s.port.rxBufferSize m.s.rxDMAPos = m.s.port.rxBufferSize - m.s.rxDMAPos := by
    simp only [sub32]; omega
  have e2 : sub32 m.s.rxDMAPos 1 = m.s.rxDMAPos - 1 := by
    simp only [sub32]; omega
  have hl : m.s.port.rxBufferSize - m.s.rxDMAPos < m.s.port.rxBuffer.length := by omega
  have g : m.s.port.rxBuffer[m.s.port.rxBufferSize - m.s.rxDMAPos]? =
      some (m.s.port.rxBuffer.getD (m.s.port.rxBufferSize - m.s.rxDMAPos) 0) := by
    simp [List.getD_eq_getElem?_getD, List.getElem?_eq_getElem hl]
  simp only [uartRead, hdma, if_true, e1, e2, g, Machine.store, Field.assign]
  by_cases hp : m.s.rxDMAPos = 1
  · have hz : m.s.rxDMAPos - 1 = 0 := by omega
    simp only [hz, hp, if_true]
    exact ⟨_, rfl⟩
  · have hz : ¬ (m.s.rxDMAPos - 1 = 0) := by omega
    simp only [hz, hp, if_false]
    exact ⟨_, rfl⟩

theorem rxWaiting_dma_eq (d : Bool) (c : Nat) (s : uartPort_t) (hdma : usesRxDMA d s = true)
    (h32 : s.port.rxBufferSize < 4294967296) (c1 : 1 ≤ c) (c2 : c ≤ s.port.rxBufferSize)
    (h1 : 1 ≤ s.rxDMAPos) (h2 : s.rxDMAPos ≤ s.port.rxBufferSize) :
    uartTotalRxBytesWaiting d c s =
      if s.rxDMAPos ≤ c then c - s.rxDMAPos else s.port.rxBufferSize + c - s.rxDMAPos := by
  simp only [uartTotalRxBytesWaiting, hdma, if_true, ge_iff_le]
  split
  · simp only [sub32]
    omega
  · simp only [sub32, add32]
    omega

theorem uartReadN_dma (d : Bool) (n : Nat) (buf : List uint8_t) (h32 : n < 4294967296)
    (hlen : n ≤ buf.length) :
    ∀ (i : Nat) (m : Machine), usesRxDMA d m.s = true → m.s.port.rxBufferSize = n →
      m.s.port.rxBuffer = buf → 1 ≤ m.s.rxDMAPos → m.s.rxDMAPos ≤ n →
      ∃ tr : List Event,
        uartReadN d i m =
          some ((List.range i).map (fun j => buf.getD ((n - m.s.rxDMAPos + j) % n) 0),
            { s := { m.s with rxDMAPos := n - (n - m.s.rxDMAPos + i) % n }, trace := tr }) := by
  intro i
  induction i with
  | zero =>
    intro m _ hn _ h1 h2
    refine ⟨m.trace, ?_⟩
    have e : n - (n - m.s.rxDMAPos + 0) % n = m.s.rxDMAPos := by
      rw [Nat.add_zero, Nat.mod_eq_of_lt (by omega)]
      omega
    rw [e]
    rfl
  | succ i ih =>
    intro m hdma hn hb h1 h2
    obtain ⟨tr, hr⟩ := uartRead_dma_eq d m hdma (by omega) (by rw [hn, hb]; exact hlen) h1
      (by omega)
    rw [hn, hb] at hr
    have hp1 : 1 ≤ (if m.s.rxDMAPos = 1 then n else m.s.rxDMAPos - 1) := by
      split_ifs <;> omega
    have hp2 : (if m.s.rxDMAPos = 1 then n else m.s.rxDMAPos - 1) ≤ n := by
      split_ifs <;> omega
    have hshift : ∀ j : Nat,
        (n - (if m.s.rxDMAPos = 1 then n else m.s.rxDMAPos - 1) + j) % n =
          (n - m.s.rxDMAPos + (j + 1)) % n := by
      intro j
      split_ifs with hp
      · have e : n - m.s.rxDMAPos + (j + 1) = n + j := by omega
        rw [e, Nat.sub_self, Nat.zero_add, Nat.add_mod_left]
      · have e : n - (m.s.rxDMAPos - 1) + j = n - m.s.rxDMAPos + (j + 1) := by omega
        rw [e]
    obtain ⟨tr1, hr1⟩ := ih
      { s := { m.s with rxDMAPos := if m.s.rxDMAPos = 1 then n else m.s.rxDMAPos - 1 },
        trace := tr } hdma hn hb hp1 hp2
    refine ⟨tr1, ?_⟩
    simp only [uartReadN, hr, hr1]
    simp only [hshift]
    rw [List.range_succ_eq_map, List.map_cons, List.map_map]
    have e0 : (n - m.s.rxDMAPos + 0) % n = n - m.s.rxDMAPos := by
      rw [Nat.add_zero, Nat.mod_eq_of_lt (by omega)]
    rw [e0]
    rfl

theorem mod_window (n k idx : Nat) (h : idx < n) : ∃! j, j < n ∧ (k + j) % n = idx := by
  have hn : 0 < n := by omega
  refine ⟨(idx + (n - k % n)) % n, ⟨Nat.mod_lt _ hn, ?_⟩, ?_⟩
  · have hk := Nat.div_add_mod k n
    have hlt := Nat.mod_lt k hn
    have e : k + (idx + (n - k % n)) = idx + n * (k / n + 1) := by
      rw [Nat.mul_succ]
      omega
    rw [Nat.add_mod_mod, e, Nat.add_mul_mod_self_left, Nat.mod_eq_of_lt h]
  · rintro j ⟨hj, he⟩
    have hk := Nat.div_add_mod k n
    have hlt := Nat.mod_lt k hn
    have e : idx + (n - k % n) = (k + j) % n + (n - k % n) := by rw [he]
    rw [e, Nat.mod_add_mod]
    have e2 : k + j + (n - k % n) = j + n * (k / n + 1) := by
      rw [Nat.mul_succ]
      omega
    rw [e2, Nat.add_mul_mod_self_left, Nat.mod_eq_of_lt hj]

/-! ## Lemmas on the write -/

theorem uartWrite_eq (E : Externals) (d : Bool) (m : Machine) (ch : uint8_t)
    (hl : m.s.port.txBufferHead < m.s.port.txBuffer.length)
    (h32 : m.s.port.txBufferHead + 1 < 4294967296) :
    uartWrite E d m ch =
      some (if usesTxDMA d m.s then
          { s := E.uartTryStartTxDMA (txPushed m.s ch),
            trace := m.trace ++
              [Event.storeTxBuffer m.s.port.txBufferHead ch,
               Event.store Field.txBufferHead (txPushed m.s ch).port.txBufferHead,
               Event.uartTryStartTxDMA (txPushed m.s ch)] }
        else
          { s := txPushed m.s ch,
            trace := m.trace ++
              [Event.storeTxBuffer m.s.port.txBufferHead ch,
               Event.store Field.txBufferHead (txPushed m.s ch).port.txBufferHead,
               Event.enableTXE] }) := by
  have e : add32 m.s.port.txBufferHead 1 = m.s.port.txBufferHead + 1 := by
    simp only [add32]; omega
  simp only [uartWrite, hl, if_true, Machine.storeTxBuffer, Machine.store, Field.assign, e,
    ge_iff_le, usesTxDMA, Machine.callTryStartTxDMA, Machine.enableTXE, txPushed]
  by_cases hw : m.s.port.txBufferSize ≤ m.s.port.txBufferHead + 1 <;>
    by_cases hd : (d && m.s.txDMAResource.isSome) = true <;>
    simp [hw, hd]

theorem full_head_ne_tail (n h t : Nat) (hn : 2 ≤ n) (hh : h < n) (ht : t < n)
    (hfull : wrapSub n h t = n - 1) :
    h ≠ t ∧ (if n ≤ h + 1 then 0 else h + 1) = t := by
  rw [wrapSub_eq _ _ _ (by omega) (by omega)] at hfull
  split_ifs at hfull ⊢ <;> omega

theorem uartTotalTxBytesFree_interrupt_free (d : Bool) (c : Nat) (s : uartPort_t)
    (hdma : usesTxDMA d s = false) (h32 : s.port.txBufferSize < 4294967296)
    (hh : s.port.txBufferHead < s.port.txBufferSize)
    (ht : s.port.txBufferTail < s.port.txBufferSize) :
    uartTotalTxBytesFree d c s =
      (s.port.txBufferSize - 1) -
        wrapSub s.port.txBufferSize s.port.txBufferHead s.port.txBufferTail := by
  obtain ⟨hu, hle⟩ := txBytesUsed_eq s h32 hh ht
  rw [← hu]
  simp only [uartTotalTxBytesFree, hdma, Bool.false_eq_true, if_false, sub32]
  omega

theorem isUartTransmitBufferEmpty_irq (d : Bool) (s : uartPort_t) (h : usesTxDMA d s = false) :
    isUartTransmitBufferEmpty d s = decide (s.port.txBufferTail = s.port.txBufferHead) := by
  simp only [isUartTransmitBufferEmpty, h, Bool.false_eq_true, if_false]

/-! ## Lemmas on the read -/

theorem uartRead_dma_cases (d : Bool) (m : Machine) (hdma : usesRxDMA d m.s = true)
    (hl : sub32 m.s.port.rxBufferSize m.s.rxDMAPos < m.s.port.rxBuffer.length) :
    uartRead d m =
      some (m.s.port.rxBuffer.getD (sub32 m.s.port.rxBufferSize m.s.rxDMAPos) 0,
        if sub32 m.s.rxDMAPos 1 = 0 then
          { s := { m.s with rxDMAPos := m.s.port.rxBufferSize },
            trace := m.trace ++ [Event.store Field.rxDMAPos (sub32 m.s.rxDMAPos 1),
              Event.store Field.rxDMAPos m.s.port.rxBufferSize] }
        else
          { s := { m.s with rxDMAPos := sub32 m.s.rxDMAPos 1 },
            trace := m.trace ++ [Event.store Field.rxDMAPos (sub32 m.s.rxDMAPos 1)] }) := by
  have g : m.s.port.rxBuffer[sub32 m.s.port.rxBufferSize m.s.rxDMAPos]? =
      some (m.s.port.rxBuffer.getD (sub32 m.s.port.rxBufferSize m.s.rxDMAPos) 0) := by
    simp [List.getD_eq_getElem?_getD, List.getElem?_eq_getElem hl]
  simp only [uartRead, hdma, if_true, g]
  generalize sub32 m.s.rxDMAPos 1 = v
  by_cases hv : v = 0
  · subst hv
    have e : (m.store Field.rxDMAPos 0).store Field.rxDMAPos
        (m.store Field.rxDMAPos 0).s.port.rxBufferSize =
        { s := { m.s with rxDMAPos := m.s.port.rxBufferSize },
          trace := m.trace ++ [Event.store Field.rxDMAPos 0,
            Event.store Field.rxDMAPos m.s.port.rxBufferSize] } := by
      show Machine.mk _ ((m.trace ++ [_]) ++ [_]) = Machine.mk _ (m.trace ++ [_, _])
      rw [List.append_assoc]
      rfl
    rw [if_pos (show (m.store Field.rxDMAPos 0).s.rxDMAPos = 0 from rfl), if_pos rfl, e]
  · rw [if_neg (show ¬ (m.store Field.rxDMAPos v).s.rxDMAPos = 0 from hv), if_neg hv]
    rfl

theorem uartRead_irq_cases (d : Bool) (m : Machine) (hdma : usesRxDMA d m.s = false)
    (hl : m.s.port.rxBufferTail < m.s.port.rxBuffer.length) :
    uartRead d m =
      some (m.s.port.rxBuffer.getD m.s.port.rxBufferTail 0,
        { s := { m.s with
                 port := { m.s.port with
                   rxBufferTail :=
                     if m.s.port.rxBufferSize ≤ add32 m.s.port.rxBufferTail 1 then 0
                     else add32 m.s.port.rxBufferTail 1 } },
          trace := m.trace ++
            [Event.store Field.rxBufferTail
              (if m.s.port.rxBufferSize ≤ add32 m.s.port.rxBufferTail 1 then 0
               else add32 m.s.port.rxBufferTail 1)] }) := by
  have g : m.s.port.rxBuffer[m.s.port.rxBufferTail]? =
      some (m.s.port.rxBuffer.getD m.s.port.rxBufferTail 0) := by
    simp [List.getD_eq_getElem?_getD, List.getElem?_eq_getElem hl]
  simp only [uartRead, hdma, Bool.false_eq_true, if_false, g, ge_iff_le]
  generalize add32 m.s.port.rxBufferTail 1 = w
  by_cases hw : m.s.port.rxBufferSize ≤ w
  · simp only [hw, if_true]
    rfl
  · simp only [hw, if_false]
    rfl

theorem uartRead_none_of_out_of_bounds (d : Bool) (m : Machine)
    (h : ¬ (if usesRxDMA d m.s then sub32 m.s.port.rxBufferSize m.s.rxDMAPos
            else m.s.port.rxBufferTail) < m.s.port.rxBuffer.length) :
    uartRead d m = none := by
  by_cases hd : usesRxDMA d m.s = true
  · simp only [hd, if_true] at h
    simp only [uartRead, hd, if_true, List.getElem?_eq_none (Nat.le_of_not_lt h)]
  · have hd1 : usesRxDMA d m.s = false := by simpa using hd
    simp only [hd1, Bool.false_eq_true, if_false] at h
    simp only [uartRead, hd1, Bool.false_eq_true, if_false,
      List.getElem?_eq_none (Nat.le_of_not_lt h)]

theorem uartRead_irq_frame (d : Bool) (m : Machine) (hdma : usesRxDMA d m.s = false)
    (hl : m.s.port.rxBufferTail < m.s.port.rxBuffer.length) :
    ∃ (ch1 : uint8_t) (m1 : Machine),
      uartRead d m = some (ch1, m1) ∧
      m1.s = { m.s with port := { m.s.port with rxBufferTail := m1.s.port.rxBufferTail } } ∧
      m1.trace = m.trace ++ [Event.store Field.rxBufferTail m1.s.port.rxBufferTail] := by
  have h := uartRead_irq_cases d m hdma hl
  generalize (if m.s.port.rxBufferSize ≤ add32 m.s.port.rxBufferTail 1 then 0
    else add32 m.s.port.rxBufferTail 1) = w at h
  exact ⟨_, _, h, rfl, rfl⟩
theorem uartRead_dma_frame (d : Bool) (m : Machine) (hdma : usesRxDMA d m.s = true)
    (hl : sub32 m.s.port.rxBufferSize m.s.rxDMAPos < m.s.port.rxBuffer.length) :
    ∃ (ch1 : uint8_t) (m1 : Machine) (stores : List Event),
      uartRead d m = some (ch1, m1) ∧
      m1.s = { m.s with rxDMAPos := m1.s.rxDMAPos } ∧
      m1.trace = m.trace ++ stores ∧
      ∀ e ∈ stores, ∃ v : Nat, e = Event.store Field.rxDMAPos v := by
  have h := uartRead_dma_cases d m hdma hl
  generalize sub32 m.s.rxDMAPos 1 = v at h
  by_cases hv : v = 0
  · rw [if_pos hv] at h
    refine ⟨_, _, [Event.store Field.rxDMAPos v,
      Event.store Field.rxDMAPos m.s.port.rxBufferSize], h, rfl, rfl, ?_⟩
    intro e he
    simp only [List.mem_cons, List.mem_singleton, List.not_mem_nil, or_false] at he
    rcases he with rfl | rfl <;> exact ⟨_, rfl⟩
  · rw [if_neg hv] at h
    refine ⟨_, _, [Event.store Field.rxDMAPos v], h, rfl, rfl, ?_⟩
    intro e he
    simp only [List.mem_singleton] at he
    exact ⟨_, he⟩
theorem uartRead_frame (d : Bool) (m : Machine) (ch1 : uint8_t) (m1 : Machine)
    (h : uartRead d m = some (ch1, m1)) :
    m1.s.port.rxBufferHead = m.s.port.rxBufferHead ∧
      m1.s.port.rxBuffer = m.s.port.rxBuffer ∧
      m1.s.port.txBuffer = m.s.port.txBuffer ∧
      m1.s.port.txBufferHead = m.s.port.txBufferHead ∧
      m1.s.port.txBufferTail = m.s.port.txBufferTail ∧
      m1.s.txDMAEmpty = m.s.txDMAEmpty := by
  by_cases hb : (if usesRxDMA d m.s then sub32 m.s.port.rxBufferSize m.s.rxDMAPos
      else m.s.port.rxBufferTail) < m.s.port.rxBuffer.length
  · by_cases hd : usesRxDMA d m.s = true
    · simp only [hd, if_true] at hb
      obtain ⟨c2, m2, _, h2, hs, _⟩ := uartRead_dma_frame d m hd hb
      have e : m2 = m1 := (Prod.mk.inj (Option.some.inj (h2.symm.trans h))).2
      rw [e] at hs
      generalize m1.s.rxDMAPos = p at hs
      rw [hs]
      exact ⟨rfl, rfl, rfl, rfl, rfl, rfl⟩
    · have hd1 : usesRxDMA d m.s = false := by simpa using hd
      simp only [hd1, Bool.false_eq_true, if_false] at hb
      obtain ⟨c2, m2, h2, hs, _⟩ := uartRead_irq_frame d m hd1 hb
      have e : m2 = m1 := (Prod.mk.inj (Option.some.inj (h2.symm.trans h))).2
      rw [e] at hs
      generalize m1.s.port.rxBufferTail = p at hs
      rw [hs]
      exact ⟨rfl, rfl, rfl, rfl, rfl, rfl⟩
  · rw [uartRead_none_of_out_of_bounds d m hb] at h
    exact absurd h (by simp)

/-! ## Lemmas on sequences of writes and reads -/

theorem wrap_succ_eq_mod (n h : Nat) (hh : h < n) :
    (if n ≤ h + 1 then 0 else h + 1) = (h + 1) % n := by
  split
  · have e : h + 1 = n := by omega
    rw [e, Nat.mod_self]
  · rw [Nat.mod_eq_of_lt (by omega)]

theorem uartWrite_inBounds (E : Externals) (d : Bool) (m : Machine) (ch : uint8_t)
    (hE : usesTxDMA d m.s = false ∨ E.tryStartKeepsForeground)
    (h : ForegroundInBounds d m) :
    ∃ m1 : Machine, uartWrite E d m ch = some m1 ∧ ForegroundInBounds d m1 ∧
      usesTxDMA d m1.s = usesTxDMA d m.s ∧
      m1.s.port.txBufferSize = m.s.port.txBufferSize ∧
      m1.s.port.rxBufferSize = m.s.port.rxBufferSize ∧
      m1.s.port.txBufferHead = (m.s.port.txBufferHead + 1) % m.s.port.txBufferSize := by
  obtain ⟨h1, h2, h3, h4, h5, h6, h7⟩ := h
  have hw := uartWrite_eq E d m ch (by omega) (by omega)
  have hhead : (txPushed m.s ch).port.txBufferHead =
      (m.s.port.txBufferHead + 1) % m.s.port.txBufferSize := wrap_succ_eq_mod _ _ h1
  have hlt : (txPushed m.s ch).port.txBufferHead < m.s.port.txBufferSize := by
    rw [hhead]
    exact Nat.mod_lt _ (by omega)
  have hlen : (txPushed m.s ch).port.txBuffer.length = m.s.port.txBuffer.length := by
    simp [txPushed]
  by_cases hd : usesTxDMA d m.s = true
  · rw [if_pos hd] at hw
    have hk : E.tryStartKeepsForeground := by
      rcases hE with hE | hE
      · rw [hd] at hE
        exact absurd hE (by simp)
      · exact hE
    obtain ⟨k1, k2, k3, k4, k5, k6, k7, k8⟩ := hk (txPushed m.s ch)
    refine ⟨_, hw, ⟨?_, ?_, ?_, ?_, ?_, ?_, ?_⟩, ?_, k2, k5, ?_⟩
    · show (E.uartTryStartTxDMA (txPushed m.s ch)).port.txBufferHead <
        (E.uartTryStartTxDMA (txPushed m.s ch)).port.txBufferSize
      rw [k1, k2]
      exact hlt
    · show (E.uartTryStartTxDMA (txPushed m.s ch)).port.txBufferSize ≤
        (E.uartTryStartTxDMA (txPushed m.s ch)).port.txBuffer.length
      rw [k2, k3, hlen]
      exact h2
    · show (E.uartTryStartTxDMA (txPushed m.s ch)).port.txBufferSize < 4294967296
      rw [k2]
      exact h3
    · show (E.uartTryStartTxDMA (txPushed m.s ch)).port.rxBufferTail <
        (E.uartTryStartTxDMA (txPushed m.s ch)).port.rxBufferSize
      rw [k4, k5]
      exact h4
    · show (E.uartTryStartTxDMA (txPushed m.s ch)).port.rxBufferSize ≤
        (E.uartTryStartTxDMA (txPushed m.s ch)).port.rxBuffer.length
      rw [k5, k6]
      exact h5
    · show (E.uartTryStartTxDMA (txPushed m.s ch)).port.rxBufferSize < 4294967296
      rw [k5]
      exact h6
    · show (d && (E.uartTryStartTxDMA (txPushed m.s ch)).rxDMAResource.isSome) = false
      rw [k7]
      exact h7
    · show (d && (E.uartTryStartTxDMA (txPushed m.s ch)).txDMAResource.isSome) =
        (d && m.s.txDMAResource.isSome)
      rw [k8]
      rfl
    · show (E.uartTryStartTxDMA (txPushed m.s ch)).port.txBufferHead = _
      rw [k1]
      exact hhead
  · rw [if_neg hd] at hw
    refine ⟨_, hw, ⟨hlt, ?_, h3, h4, h5, h6, h7⟩, rfl, rfl, rfl, hhead⟩
    show m.s.port.txBufferSize ≤ (txPushed m.s ch).port.txBuffer.length
    rw [hlen]
    exact h2

theorem uartRead_inBounds (d : Bool) (m : Machine) (h : ForegroundInBounds d m) :
    ∃ (ch : uint8_t) (m1 : Machine), uartRead d m = some (ch, m1) ∧ ForegroundInBounds d m1 ∧
      usesTxDMA d m1.s = usesTxDMA d m.s ∧
      m1.s.port.txBufferSize = m.s.port.txBufferSize ∧
      m1.s.port.rxBufferSize = m.s.port.rxBufferSize ∧
      m1.s.port.rxBufferTail = (m.s.port.rxBufferTail + 1) % m.s.port.rxBufferSize := by
  obtain ⟨h1, h2, h3, h4, h5, h6, h7⟩ := h
  have hr := uartRead_irq_cases d m h7 (by omega)
  have e : add32 m.s.port.rxBufferTail 1 = m.s.port.rxBufferTail + 1 := by
    simp only [add32]; omega
  rw [e, wrap_succ_eq_mod _ _ h4] at hr
  have hlt := Nat.mod_lt (m.s.port.rxBufferTail + 1) (show 0 < m.s.port.rxBufferSize by omega)
  generalize (m.s.port.rxBufferTail + 1) % m.s.port.rxBufferSize = t at hr hlt
  exact ⟨_, _, hr, ⟨h1, h2, h3, hlt, h5, h6, h7⟩, rfl, rfl, rfl, rfl⟩

theorem runPort_inBounds (E : Externals) (d : Bool) (ops : List PortOp) :
    ∀ m : Machine, (usesTxDMA d m.s = false ∨ E.tryStartKeepsForeground) →
      ForegroundInBounds d m →
      ∃ m1 : Machine, runPort E d m ops = some m1 ∧ ForegroundInBounds d m1 ∧
        m1.s.port.txBufferSize = m.s.port.txBufferSize ∧
        m1.s.port.rxBufferSize = m.s.port.rxBufferSize := by
  induction ops with
  | nil => exact fun m _ h => ⟨m, rfl, h, rfl, rfl⟩
  | cons op ops ih =>
    intro m hE h
    cases op with
    | write ch =>
      obtain ⟨m1, hw, hb, hd, ht, hr, _⟩ := uartWrite_inBounds E d m ch hE h
      obtain ⟨m2, hrun, hb2, ht2, hr2⟩ := ih m1 (by rw [hd]; exact hE) hb
      exact ⟨m2, by simp only [runPort, hw, hrun], hb2, ht2.trans ht, hr2.trans hr⟩
    | read =>
      obtain ⟨ch, m1, hw, hb, hd, ht, hr, _⟩ := uartRead_inBounds d m h
      obtain ⟨m2, hrun, hb2, ht2, hr2⟩ := ih m1 (by rw [hd]; exact hE) hb
      exact ⟨m2, by simp only [runPort, hw, hrun], hb2, ht2.trans ht, hr2.trans hr⟩

/-! ## Lemmas on the mask rule -/

theorem maskedOccupied_pow_two (k h t : Nat) (hk : k ≤ 31) (hh : h < 2 ^ k) (ht : t < 2 ^ k) :
    maskedOccupied (2 ^ k) h t = if t ≤ h then h - t else 2 ^ k + h - t := by
  have hpos : 0 < 2 ^ k := Nat.pow_pos (by decide)
  have hle : 2 ^ k ≤ 2 ^ 31 := Nat.pow_le_pow_right (by decide) hk
  have h31 : (2 : Nat) ^ 31 = 2147483648 := by norm_num
  have hq : 2 ^ k * 2 ^ (32 - k) = 4294967296 := by
    rw [← pow_add, show k + (32 - k) = 32 by omega]
    norm_num
  have hq1 : 0 < 2 ^ (32 - k) := Nat.pow_pos (by decide)
  obtain ⟨z, hz⟩ : ∃ z, 2 ^ (32 - k) = z + 1 := ⟨2 ^ (32 - k) - 1, by omega⟩
  rw [hz, Nat.mul_succ] at hq
  have e1 : sub32 (2 ^ k) 1 = 2 ^ k - 1 := by
    simp only [sub32]
    omega
  unfold maskedOccupied
  rw [e1, Nat.and_pow_two_sub_one_eq_mod]
  split
  · have e2 : sub32 h t = h - t := by
      simp only [sub32]
      omega
    rw [e2, Nat.mod_eq_of_lt (by omega)]
  · have e2 : sub32 h t = (2 ^ k + h - t) + 2 ^ k * z := by
      simp only [sub32]
      omega
    rw [e2, Nat.add_mul_mod_self_left, Nat.mod_eq_of_lt (by omega)]

theorem and_complement_eq_zero (k n : Nat) (hn : n ≤ 2 ^ k) (h1 : 1 ≤ n) :
    (2 ^ k - n) &&& (n - 1) = 0 := by
  apply Nat.eq_of_testBit_eq
  intro i
  have e : 2 ^ k - n = 2 ^ k - ((n - 1) + 1) := by omega
  rw [Nat.testBit_and, e, Nat.testBit_two_pow_sub_succ (by omega), Nat.zero_testBit]
  cases (n - 1).testBit i <;> simp

theorem not_pow_two_bracket (n : Nat) (h1 : 1 ≤ n) (hnp : ¬ ∃ k : Nat, n = 2 ^ k) :
    ∃ k : Nat, 2 ^ k < n ∧ n < 2 ^ (k + 1) := by
  refine ⟨Nat.log 2 n, ?_, Nat.lt_pow_succ_log_self (by decide) n⟩
  have hle := Nat.pow_log_le_self 2 (show n ≠ 0 by omega)
  rcases Nat.lt_or_ge (2 ^ Nat.log 2 n) n with h | h
  · exact h
  · exact absurd ⟨Nat.log 2 n, by omega⟩ hnp

/-! ## Lemmas on the interrupt-mode read -/

theorem uartRead_irq_mod (d : Bool) (m : Machine) (hdma : usesRxDMA d m.s = false)
    (h32 : m.s.port.rxBufferSize < 4294967296)
    (hlen : m.s.port.rxBufferSize ≤ m.s.port.rxBuffer.length)
    (ht : m.s.port.rxBufferTail < m.s.port.rxBufferSize) :
    ∃ tr : List Event,
      uartRead d m =
        some (m.s.port.rxBuffer.getD m.s.port.rxBufferTail 0,
          { s := { m.s with
                   port := { m.s.port with
                     rxBufferTail := (m.s.port.rxBufferTail + 1) % m.s.port.rxBufferSize } },
            trace := tr }) := by
  have hr := uartRead_irq_cases d m hdma (by omega)
  have e : add32 m.s.port.rxBufferTail 1 = m.s.port.rxBufferTail + 1 := by
    simp only [add32]; omega
  rw [e, wrap_succ_eq_mod _ _ ht] at hr
  exact ⟨_, hr⟩

theorem uartReadN_irq (d : Bool) (n : Nat) (buf : List uint8_t) (h32 : n < 4294967296)
    (hlen : n ≤ buf.length) :
    ∀ (i : Nat) (m : Machine), usesRxDMA d m.s = false → m.s.port.rxBufferSize = n →
      m.s.port.rxBuffer = buf → m.s.port.rxBufferTail < n →
      ∃ tr : List Event,
        uartReadN d i m =
          some ((List.range i).map (fun j => buf.getD ((m.s.port.rxBufferTail + j) % n) 0),
            { s := { m.s with
                     port := { m.s.port with rxBufferTail := (m.s.port.rxBufferTail + i) % n } },
              trace := tr }) := by
  intro i
  induction i with
  | zero =>
    intro m _ hn _ ht
    refine ⟨m.trace, ?_⟩
    have e : (m.s.port.rxBufferTail + 0) % n = m.s.port.rxBufferTail := by
      rw [Nat.add_zero, Nat.mod_eq_of_lt ht]
    rw [e]
    rfl
  | succ i ih =>
    intro m hdma hn hb ht
    obtain ⟨tr, hr⟩ := uartRead_irq_mod d m hdma (by omega) (by rw [hn, hb]; exact hlen)
      (by omega)
    rw [hn, hb] at hr
    have hlt := Nat.mod_lt (m.s.port.rxBufferTail + 1) (show 0 < n by omega)
    have hshift : ∀ j : Nat, ((m.s.port.rxBufferTail + 1) % n + j) % n =
        (m.s.port.rxBufferTail + (j + 1)) % n := by
      intro j
      rw [Nat.mod_add_mod, show m.s.port.rxBufferTail + 1 + j = m.s.port.rxBufferTail + (j + 1)
        by omega]
    obtain ⟨tr1, hr1⟩ := ih
      { s := { m.s with
               port := { m.s.port with rxBufferTail := (m.s.port.rxBufferTail + 1) % n } },
        trace := tr } hdma hn hb hlt
    refine ⟨tr1, ?_⟩
    simp only [uartReadN, hr, hr1]
    simp only [hshift]
    rw [List.range_succ_eq_map, List.map_cons, List.map_map]
    have e0 : (m.s.port.rxBufferTail + 0) % n = m.s.port.rxBufferTail := by
      rw [Nat.add_zero, Nat.mod_eq_of_lt ht]
    rw [e0]
    rfl

theorem rxWaiting_irq_eq (d : Bool) (c : Nat) (s : uartPort_t) (hdma : usesRxDMA d s = false)
    (h32 : s.port.rxBufferSize < 4294967296) (hh : s.port.rxBufferHead < s.port.rxBufferSize)
    (ht : s.port.rxBufferTail < s.port.rxBufferSize) :
    uartTotalRxBytesWaiting d c s =
      if s.port.rxBufferTail ≤ s.port.rxBufferHead then s.port.rxBufferHead - s.port.rxBufferTail
      else s.port.rxBufferSize + s.port.rxBufferHead - s.port.rxBufferTail := by
  simp only [uartTotalRxBytesWaiting, hdma, Bool.false_eq_true, if_false, sub32, add32,
    ge_iff_le]
  split_ifs <;> omega

theorem pow_two_uint32_le (n : Nat) (h32 : n < 4294967296) (hp : ∃ k : Nat, n = 2 ^ k) :
    n ≤ 2147483648 := by
  obtain ⟨k, rfl⟩ := hp
  have hk : k ≤ 31 := by
    by_contra hge
    have h := Nat.pow_le_pow_right (show 0 < 2 by decide) (show 32 ≤ k by omega)
    have e : (2 : Nat) ^ 32 = 4294967296 := by norm_num
    omega
  have h := Nat.pow_le_pow_right (show 0 < 2 by decide) hk
  have e : (2 : Nat) ^ 31 = 2147483648 := by norm_num
  omega

/-! ## The claims -/

/-- C1 (FIFO).  Take one ring buffer whose push is the buffer step of
`uartWrite` and whose pop is the interrupt-mode step of `uartRead`, with
indices and storage consistent with a capacity that fits 32 bits.  Starting
from `head = tail`, every sequence of operations that keeps the caller's
contract (each push with fewer than `capacity - 1` bytes occupied, each pop
with at least one) runs to the end, and the popped bytes are exactly the first
bytes of the pushed sequence, as many as there were pops, in the same order. -/
theorem uart_ring_fifo (E : Externals) (USE_DMA : Bool) (r : Ring) (ops : List Op)
    (h32 : r.capacity < 4294967296) (hlen : r.storage.length = r.capacity)
    (hempty : r.head = r.tail) (ht : r.tail < r.capacity)
    (hadm : r.admissible E USE_DMA ops = true) :
    ∃ r1 out, Ring.run E USE_DMA r ops = some (r1, out) ∧ out.length = popCount ops ∧
      out = (pushedBytes ops).take (popCount ops) := by
  have hw : r.WF := ⟨h32, hlen, by omega, ht⟩
  obtain ⟨r1, out, hrun, _, hl, hc⟩ := Ring.run_contents E USE_DMA ops r hw hadm
  refine ⟨r1, out, hrun, hl, ?_⟩
  have h0 : r.contents USE_DMA = [] := by
    unfold Ring.contents
    rw [Ring.occupied_eq USE_DMA r hw]
    simp [hempty]
  rw [h0, List.nil_append] at hc
  rw [hc, ← hl, List.take_left]

set_option maxRecDepth 100000 in
/-- Witness of C1: scenario A on a ring of capacity 16.  The 16 pops return
`'A'`, then `'B'..'P'`. -/
theorem uart_ring_fifo_witness :
    (Ring.run inertExternals false ring16 scenarioA).map Prod.snd =
      some [65, 66, 67, 68, 69, 70, 71, 72, 73, 74, 75, 76, 77, 78, 79, 80] := by
  obtain ⟨r1, out, hrun, _, hout⟩ :=
    uart_ring_fifo inertExternals false ring16 scenarioA (by decide) (by decide) (by decide)
      (by decide) (by decide)
  rw [hrun, hout]
  show some (List.take (popCount scenarioA) (pushedBytes scenarioA)) = _
  decide

/-- C2 (conservation, interrupt mode).  On a port without transmit DMA whose
`txBufferHead` and `txBufferTail` are below `txBufferSize` (a `uint32_t`),
`uartTotalTxBytesFree` returns `(txBufferSize - 1) - occupied` with
`occupied = (txBufferHead - txBufferTail) mod txBufferSize`; so
`occupied + free = txBufferSize - 1`; the `bytesUsed` that the code subtracts
is that `occupied` and is at most `txBufferSize - 1`, so the subtraction does
not underflow; and the result is at most `txBufferSize - 1`. -/
theorem uartTotalTxBytesFree_interrupt_conservation (USE_DMA : Bool) (txDMACounter : Nat)
    (s : uartPort_t) (hdma : usesTxDMA USE_DMA s = false)
    (h32 : s.port.txBufferSize < 4294967296)
    (hh : s.port.txBufferHead < s.port.txBufferSize)
    (ht : s.port.txBufferTail < s.port.txBufferSize) :
    uartTotalTxBytesFree USE_DMA txDMACounter s =
        (s.port.txBufferSize - 1) -
          wrapSub s.port.txBufferSize s.port.txBufferHead s.port.txBufferTail ∧
      wrapSub s.port.txBufferSize s.port.txBufferHead s.port.txBufferTail +
          uartTotalTxBytesFree USE_DMA txDMACounter s = s.port.txBufferSize - 1 ∧
      txBytesUsed s = wrapSub s.port.txBufferSize s.port.txBufferHead s.port.txBufferTail ∧
      txBytesUsed s ≤ s.port.txBufferSize - 1 ∧
      uartTotalTxBytesFree USE_DMA txDMACounter s ≤ s.port.txBufferSize - 1 := by
  obtain ⟨hu, hle⟩ := txBytesUsed_eq s h32 hh ht
  have hf : uartTotalTxBytesFree USE_DMA txDMACounter s =
      (s.port.txBufferSize - 1) - txBytesUsed s := by
    simp only [uartTotalTxBytesFree, hdma, Bool.false_eq_true, if_false, sub32]
    omega
  rw [← hu, hf]
  omega

/-- Witness of C2: size 16 with 15 bytes queued gives 0 free, with 14 queued
(one popped) gives 1 free. -/
theorem uartTotalTxBytesFree_interrupt_conservation_witness :
    uartTotalTxBytesFree false 0 (txPort16 15 0) = 0 ∧
      15 + uartTotalTxBytesFree false 0 (txPort16 15 0) = 15 ∧
      uartTotalTxBytesFree false 0 (txPort16 15 1) = 1 := by
  have h := uartTotalTxBytesFree_interrupt_conservation false 0 (txPort16 15 0)
    (by decide) (by decide) (by decide) (by decide)
  have e : wrapSub (txPort16 15 0).port.txBufferSize (txPort16 15 0).port.txBufferHead
      (txPort16 15 0).port.txBufferTail = 15 := by decide
  rw [e] at h
  exact ⟨h.1, h.2.1, by decide⟩

/-- C3 (occupied count by wraparound subtraction).  With `rxBufferSize` a
`uint32_t`: on a port without receive DMA whose `rxBufferHead` and
`rxBufferTail` are below `rxBufferSize`, `uartTotalRxBytesWaiting` returns
`(rxBufferHead - rxBufferTail) mod rxBufferSize`, at most `rxBufferSize - 1`.
On a port with receive DMA it returns `(h - t) mod rxBufferSize`, at most
`rxBufferSize - 1`, for `h` the hardware remaining count and `t = rxDMAPos`,
both when `h` and `t` are in `[1, rxBufferSize]` and when they are below
`rxBufferSize`; and `rxBufferHead` and `rxBufferTail` have no influence on
that result. -/
theorem uartTotalRxBytesWaiting_wraparound (USE_DMA : Bool) (rxDMAHead : Nat) (s : uartPort_t)
    (h32 : s.port.rxBufferSize < 4294967296) :
    (usesRxDMA USE_DMA s = false → s.port.rxBufferHead < s.port.rxBufferSize →
      s.port.rxBufferTail < s.port.rxBufferSize →
        uartTotalRxBytesWaiting USE_DMA rxDMAHead s =
            wrapSub s.port.rxBufferSize s.port.rxBufferHead s.port.rxBufferTail ∧
          uartTotalRxBytesWaiting USE_DMA rxDMAHead s ≤ s.port.rxBufferSize - 1) ∧
    (usesRxDMA USE_DMA s = true →
      ((1 ≤ rxDMAHead ∧ rxDMAHead ≤ s.port.rxBufferSize ∧
          1 ≤ s.rxDMAPos ∧ s.rxDMAPos ≤ s.port.rxBufferSize) ∨
        (rxDMAHead < s.port.rxBufferSize ∧ s.rxDMAPos < s.port.rxBufferSize)) →
        uartTotalRxBytesWaiting USE_DMA rxDMAHead s =
            wrapSub s.port.rxBufferSize rxDMAHead s.rxDMAPos ∧
          uartTotalRxBytesWaiting USE_DMA rxDMAHead s ≤ s.port.rxBufferSize - 1 ∧
          ∀ head tail : Nat,
            uartTotalRxBytesWaiting USE_DMA rxDMAHead
                { s with port := { s.port with rxBufferHead := head, rxBufferTail := tail } } =
              uartTotalRxBytesWaiting USE_DMA rxDMAHead s) := by
  constructor
  · intro hdma hh ht
    rw [wrapSub_eq _ _ _ (by omega) (by omega)]
    simp only [uartTotalRxBytesWaiting, hdma, Bool.false_eq_true, if_false, sub32, add32,
      ge_iff_le]
    constructor <;> split_ifs <;> omega
  · intro hdma hr
    have hdma1 : ∀ head tail : Nat, usesRxDMA USE_DMA
        { s with port := { s.port with rxBufferHead := head, rxBufferTail := tail } } = true :=
      fun _ _ => hdma
    rw [wrapSub_eq _ _ _ (by omega) (by omega)]
    simp only [uartTotalRxBytesWaiting, hdma, hdma1, if_true, sub32, add32, ge_iff_le]
    refine ⟨?_, ?_, fun _ _ => trivial⟩ <;> split_ifs <;> omega

/-- Witness of C3: size 16.  Without DMA, head 2 and tail 14 give 4 bytes
waiting; with DMA, hardware count 13 and cursor 16 give `(13 - 16) mod 16`,
that is 13. -/
theorem uartTotalRxBytesWaiting_wraparound_witness :
    uartTotalRxBytesWaiting false 0 (rxPort16 2 14) = 4 ∧
      uartTotalRxBytesWaiting true 13 (rxDmaPort16 16) = 13 := by
  have h1 := (uartTotalRxBytesWaiting_wraparound false 0 (rxPort16 2 14) (by decide)).1
    (by decide) (by decide) (by decide)
  have h2 := (uartTotalRxBytesWaiting_wraparound true 13 (rxDmaPort16 16) (by decide)).2
    (by decide) (Or.inl (by decide))
  have e1 : wrapSub (rxPort16 2 14).port.rxBufferSize (rxPort16 2 14).port.rxBufferHead
      (rxPort16 2 14).port.rxBufferTail = 4 := by decide
  have e2 : wrapSub (rxDmaPort16 16).port.rxBufferSize 13 (rxDmaPort16 16).rxDMAPos = 13 := by
    decide
  rw [e1] at h1
  rw [e2] at h2
  exact ⟨h1.1, h2.1⟩

/-- C4 (full-buffer clamp, DMA).  On a port with transmit DMA whose
`txBufferHead` and `txBufferTail` are below `txBufferSize`, with hardware
remaining count `c ≤ txBufferSize`, let
`used = ((txBufferHead - txBufferTail) mod txBufferSize) + c`.  If `used`
exceeds `txBufferSize - 1` then `uartTotalTxBytesFree` returns 0; otherwise it
returns `(txBufferSize - 1) - used`.  In every case the result is at most
`txBufferSize - 1`.  The size is one the driver can have: a `uint32_t` of at
most `2^31`, as every power of two that fits a `uint32_t` is (the header asks
for power-of-two sizes). -/
theorem uartTotalTxBytesFree_dma_clamp (USE_DMA : Bool) (c : Nat) (s : uartPort_t)
    (hdma : usesTxDMA USE_DMA s = true) (hsize : s.port.txBufferSize ≤ 2147483648)
    (hh : s.port.txBufferHead < s.port.txBufferSize)
    (ht : s.port.txBufferTail < s.port.txBufferSize) (hc : c ≤ s.port.txBufferSize) :
    (s.port.txBufferSize - 1 <
        wrapSub s.port.txBufferSize s.port.txBufferHead s.port.txBufferTail + c →
      uartTotalTxBytesFree USE_DMA c s = 0) ∧
    (wrapSub s.port.txBufferSize s.port.txBufferHead s.port.txBufferTail + c ≤
        s.port.txBufferSize - 1 →
      uartTotalTxBytesFree USE_DMA c s = (s.port.txBufferSize - 1) -
        (wrapSub s.port.txBufferSize s.port.txBufferHead s.port.txBufferTail + c)) ∧
    uartTotalTxBytesFree USE_DMA c s ≤ s.port.txBufferSize - 1 := by
  obtain ⟨hu, hle⟩ := txBytesUsed_eq s (by omega) hh ht
  rw [← hu]
  simp only [uartTotalTxBytesFree, hdma, if_true, sub32, add32, ge_iff_le]
  generalize txBytesUsed s = u at hle ⊢
  refine ⟨fun hgt => ?_, fun hle1 => ?_, ?_⟩ <;> split_ifs <;> omega

/-- Witness of C4: size 16, which is `2^4`, with 10 bytes queued.  With 10 more
in flight the result is clamped to 0; with 3 in flight it is `15 - 13 = 2`. -/
theorem uartTotalTxBytesFree_dma_clamp_witness :
    uartTotalTxBytesFree true 10 (txDmaPort 16 10 0) = 0 ∧
      uartTotalTxBytesFree true 3 (txDmaPort 16 10 0) = 2 := by
  have e : wrapSub (txDmaPort 16 10 0).port.txBufferSize (txDmaPort 16 10 0).port.txBufferHead
      (txDmaPort 16 10 0).port.txBufferTail = 10 := by decide
  have hsize : (txDmaPort 16 10 0).port.txBufferSize ≤ 2147483648 :=
    pow_two_uint32_le _ (by decide) ⟨4, by decide⟩
  have h1 := (uartTotalTxBytesFree_dma_clamp true 10 (txDmaPort 16 10 0) (by decide) hsize
    (by decide) (by decide) (by decide)).1
  have h2 := (uartTotalTxBytesFree_dma_clamp true 3 (txDmaPort 16 10 0) (by decide) hsize
    (by decide) (by decide) (by decide)).2.1
  rw [e] at h1 h2
  exact ⟨h1 (by decide), h2 (by decide)⟩

/-- C5, as stated, fails: a port with transmit DMA, size 16, 10 bytes queued
(`txBufferHead = 10`, `txBufferTail = 0`) and 10 more in flight has
`occupied = 20` and `uartTotalTxBytesFree = 0`; their sum is 20, not 15. -/
theorem uartTotalTxBytesFree_dma_conservation_counterexample :
    usesTxDMA true (txDmaPort 16 10 0) = true ∧
      (txDmaPort 16 10 0).port.txBufferHead < (txDmaPort 16 10 0).port.txBufferSize ∧
      (txDmaPort 16 10 0).port.txBufferTail < (txDmaPort 16 10 0).port.txBufferSize ∧
      10 ≤ (txDmaPort 16 10 0).port.txBufferSize ∧
      (wrapSub 16 10 0 + 10) + uartTotalTxBytesFree true 10 (txDmaPort 16 10 0) = 20 ∧
      (wrapSub 16 10 0 + 10) + uartTotalTxBytesFree true 10 (txDmaPort 16 10 0) ≠
        (txDmaPort 16 10 0).port.txBufferSize - 1 := by
  decide

/-- C5, amended (conservation, DMA).  On a port with transmit DMA whose
`txBufferHead` and `txBufferTail` are below `txBufferSize` (a `uint32_t`), with
hardware remaining count `c ≤ txBufferSize` and
`occupied = ((txBufferHead - txBufferTail) mod txBufferSize) + c`:
`occupied + uartTotalTxBytesFree = txBufferSize - 1` holds exactly when
`occupied ≤ txBufferSize - 1`, and in general the sum is at least
`txBufferSize - 1`.  When `occupied` exceeds `txBufferSize - 1` and
`txBufferSize` is at most `2^31`, as every power of two that fits a `uint32_t`
is, `uartTotalTxBytesFree` is clamped to 0, so the sum is `occupied` itself. -/
theorem uartTotalTxBytesFree_dma_conservation (USE_DMA : Bool) (c : Nat) (s : uartPort_t)
    (hdma : usesTxDMA USE_DMA s = true) (h32 : s.port.txBufferSize < 4294967296)
    (hh : s.port.txBufferHead < s.port.txBufferSize)
    (ht : s.port.txBufferTail < s.port.txBufferSize) (hc : c ≤ s.port.txBufferSize) :
    ((wrapSub s.port.txBufferSize s.port.txBufferHead s.port.txBufferTail + c) +
          uartTotalTxBytesFree USE_DMA c s = s.port.txBufferSize - 1 ↔
        wrapSub s.port.txBufferSize s.port.txBufferHead s.port.txBufferTail + c ≤
          s.port.txBufferSize - 1) ∧
      s.port.txBufferSize - 1 ≤
        (wrapSub s.port.txBufferSize s.port.txBufferHead s.port.txBufferTail + c) +
          uartTotalTxBytesFree USE_DMA c s ∧
      (s.port.txBufferSize ≤ 2147483648 →
        s.port.txBufferSize - 1 <
          wrapSub s.port.txBufferSize s.port.txBufferHead s.port.txBufferTail + c →
        uartTotalTxBytesFree USE_DMA c s = 0 ∧
        (wrapSub s.port.txBufferSize s.port.txBufferHead s.port.txBufferTail + c) +
            uartTotalTxBytesFree USE_DMA c s =
          wrapSub s.port.txBufferSize s.port.txBufferHead s.port.txBufferTail + c) := by
  obtain ⟨hu, hle⟩ := txBytesUsed_eq s h32 hh ht
  rw [← hu]
  simp only [uartTotalTxBytesFree, hdma, if_true, sub32, add32, ge_iff_le]
  generalize txBytesUsed s = u at hle ⊢
  refine ⟨⟨fun h => ?_, fun h => ?_⟩, ?_, fun hsize hgt => ⟨?_, ?_⟩⟩ <;>
    split_ifs at * <;> omega

/-- Witness of C5 amended: size 16, which is `2^4`, with 10 bytes queued.  With
3 in flight `13 + 2 = 15`; with 10 in flight the free count is 0 and the sum
is 20. -/
theorem uartTotalTxBytesFree_dma_conservation_witness :
    (10 + 3) + uartTotalTxBytesFree true 3 (txDmaPort 16 10 0) = 15 ∧
      uartTotalTxBytesFree true 10 (txDmaPort 16 10 0) = 0 ∧
      (10 + 10) + uartTotalTxBytesFree true 10 (txDmaPort 16 10 0) = 10 + 10 := by
  have e : wrapSub (txDmaPort 16 10 0).port.txBufferSize (txDmaPort 16 10 0).port.txBufferHead
      (txDmaPort 16 10 0).port.txBufferTail = 10 := by decide
  have h := (uartTotalTxBytesFree_dma_conservation true 3 (txDmaPort 16 10 0) (by decide)
    (by decide) (by decide) (by decide) (by decide)).1
  have g := (uartTotalTxBytesFree_dma_conservation true 10 (txDmaPort 16 10 0) (by decide)
    (by decide) (by decide) (by decide) (by decide)).2.2
    (pow_two_uint32_le _ (by decide) ⟨4, by decide⟩)
  rw [e] at h g
  exact ⟨h.2 (by decide), (g (by decide)).1, (g (by decide)).2⟩

/-- C6.  On a port with transmit DMA `isUartTransmitBufferEmpty` returns the
`txDMAEmpty` flag, whatever `txBufferHead` and `txBufferTail` are; on a port
without transmit DMA it returns true exactly when
`txBufferTail == txBufferHead`, whatever `txDMAEmpty` is. -/
theorem isUartTransmitBufferEmpty_by_mode (USE_DMA : Bool) (s : uartPort_t) :
    (usesTxDMA USE_DMA s = true →
      isUartTransmitBufferEmpty USE_DMA s = s.txDMAEmpty ∧
      ∀ head tail : Nat,
        isUartTransmitBufferEmpty USE_DMA
            { s with port := { s.port with txBufferHead := head, txBufferTail := tail } } =
          s.txDMAEmpty) ∧
    (usesTxDMA USE_DMA s = false →
      (isUartTransmitBufferEmpty USE_DMA s = true ↔ s.port.txBufferTail = s.port.txBufferHead) ∧
      ∀ flag : Bool,
        (isUartTransmitBufferEmpty USE_DMA { s with txDMAEmpty := flag } = true ↔
          s.port.txBufferTail = s.port.txBufferHead)) := by
  constructor
  · intro hdma
    have hdma1 : ∀ head tail : Nat, usesTxDMA USE_DMA
        { s with port := { s.port with txBufferHead := head, txBufferTail := tail } } = true :=
      fun _ _ => hdma
    simp [isUartTransmitBufferEmpty, hdma, hdma1]
  · intro hdma
    have hdma1 : ∀ flag : Bool, usesTxDMA USE_DMA { s with txDMAEmpty := flag } = false :=
      fun _ => hdma
    simp [isUartTransmitBufferEmpty, hdma, hdma1]

/-- Witness of C6: with transmit DMA, a ring holding 10 bytes and the flag set
reads as empty; without DMA, a ring with 15 bytes queued reads as not empty
and one with `head = tail = 3` as empty. -/
theorem isUartTransmitBufferEmpty_by_mode_witness :
    isUartTransmitBufferEmpty true (txDmaPort 16 10 0) = true ∧
      isUartTransmitBufferEmpty false (txPort16 15 0) = false ∧
      isUartTransmitBufferEmpty false (txPort16 3 3) = true := by
  refine ⟨?_, ?_, ?_⟩
  · exact ((isUartTransmitBufferEmpty_by_mode true (txDmaPort 16 10 0)).1 (by decide)).1
  · have h := ((isUartTransmitBufferEmpty_by_mode false (txPort16 15 0)).2 (by decide)).1
    cases hb : isUartTransmitBufferEmpty false (txPort16 15 0)
    · rfl
    · exact absurd (h.mp hb) (by decide)
  · exact ((isUartTransmitBufferEmpty_by_mode false (txPort16 3 3)).2 (by decide)).1.mpr
      (by decide)

/-- C7 (open).  `uartOpen` returns `NULL` exactly when the lookup
`serialUART(device, baudRate, mode, options)` yields no port, and then its
trace is empty: it stores nothing and does not call `uartReconfigure`.  When
the lookup yields a port, the trace is a sequence of stores followed by one
call of `uartReconfigure`, the only one; the descriptor handed to that call is
the looked-up port with the four indices zero, `txDMAEmpty` set under
`USE_DMA`, and `rxCallback`, `rxCallbackData`, `mode`, `baudRate`, `options`
equal to the arguments; the returned port is that descriptor as
`uartReconfigure` leaves it. -/
theorem uartOpen_result (E : Externals) (USE_DMA : Bool) (device : UARTDevice_e)
    (rxCallback rxCallbackData baudRate mode options : Nat) :
    ((uartOpen E USE_DMA device rxCallback rxCallbackData baudRate mode options).1 = none ↔
        E.serialUART device baudRate mode options = none) ∧
    (E.serialUART device baudRate mode options = none →
      uartOpen E USE_DMA device rxCallback rxCallbackData baudRate mode options = (none, [])) ∧
    (∀ s0 : uartPort_t, E.serialUART device baudRate mode options = some s0 →
      ∃ pre : uartPort_t,
        uartOpen E USE_DMA device rxCallback rxCallbackData baudRate mode options =
          (some (E.uartReconfigure pre),
            uartOpenStores USE_DMA rxCallback rxCallbackData baudRate mode options ++
              [Event.uartReconfigure pre]) ∧
        (∀ e ∈ uartOpenStores USE_DMA rxCallback rxCallbackData baudRate mode options,
          e.isStore = true) ∧
        (uartOpenStores USE_DMA rxCallback rxCallbackData baudRate mode options ++
            [Event.uartReconfigure pre]).countP Event.isReconfigure = 1 ∧
        pre =
          { s0 with
            txDMAEmpty := if USE_DMA then true else s0.txDMAEmpty
            port :=
              { s0.port with
                rxBufferHead := 0, rxBufferTail := 0, txBufferHead := 0, txBufferTail := 0,
                rxCallback := rxCallback, rxCallbackData := rxCallbackData,
                mode := mode, baudRate := baudRate, options := options } } ∧
        pre.port.rxCallback = rxCallback ∧ pre.port.rxCallbackData = rxCallbackData ∧
        pre.port.mode = mode ∧ pre.port.baudRate = baudRate ∧ pre.port.options = options) := by
  refine ⟨?_, ?_, ?_⟩
  · cases h : E.serialUART device baudRate mode options <;> simp [uartOpen, h]
  · intro h
    simp [uartOpen, h]
  · intro s0 h
    refine ⟨_, ?_, ?_, ?_, rfl, rfl, rfl, rfl, rfl, rfl⟩
    · cases USE_DMA <;>
        simp [uartOpen, h, Machine.callReconfigure, Machine.store, Field.assign, uartOpenStores]
    · cases USE_DMA <;> simp [uartOpenStores, Event.isStore]
    · cases USE_DMA <;> simp [uartOpenStores, List.countP_cons, Event.isReconfigure]

/-- Witness of C7: with one known device, opening `UARTDEV_2` returns `NULL`
with an empty trace; opening `UARTDEV_1` returns its port with the indices
reset and the arguments stored, after ten events the last of which is the
call of `uartReconfigure`. -/
theorem uartOpen_result_witness :
    uartOpen oneDeviceExternals false UARTDevice_e.UARTDEV_2 11 22 115200 3 0 = (none, []) ∧
      ((uartOpen oneDeviceExternals false UARTDevice_e.UARTDEV_1 11 22 115200 3 0).1.map
          (fun s => [s.port.rxBufferHead, s.port.rxBufferTail, s.port.txBufferHead,
            s.port.txBufferTail, s.port.rxCallback, s.port.rxCallbackData, s.port.mode,
            s.port.baudRate, s.port.options])) = some [0, 0, 0, 0, 11, 22, 3, 115200, 0] ∧
      (uartOpen oneDeviceExternals false UARTDevice_e.UARTDEV_1 11 22 115200 3 0).2.length = 10 := by
  have h := uartOpen_result oneDeviceExternals false UARTDevice_e.UARTDEV_2 11 22 115200 3 0
  exact ⟨h.2.1 (by decide), by decide, by decide⟩

/-- C8 (DMA-mode read step).  On a port with receive DMA whose cursor
`rxDMAPos` is in `[1, rxBufferSize]` (`rxBufferSize` a `uint32_t` no larger
than the storage), `uartRead` returns: the load is at index
`rxBufferSize - rxDMAPos`, which is below `rxBufferSize`, and the byte stored
there is the result.  Afterwards `rxDMAPos` is `rxDMAPos - 1` if it was above
1 and `rxBufferSize` if it was 1; so it is again in `[1, rxBufferSize]` and
not 0, while the rest of the descriptor is as before. -/
theorem uartRead_dma_step (USE_DMA : Bool) (m : Machine) (hdma : usesRxDMA USE_DMA m.s = true)
    (h32 : m.s.port.rxBufferSize < 4294967296)
    (hlen : m.s.port.rxBufferSize ≤ m.s.port.rxBuffer.length)
    (h1 : 1 ≤ m.s.rxDMAPos) (h2 : m.s.rxDMAPos ≤ m.s.port.rxBufferSize) :
    ∃ (ch : uint8_t) (m1 : Machine),
      uartRead USE_DMA m = some (ch, m1) ∧
      m.s.port.rxBufferSize - m.s.rxDMAPos < m.s.port.rxBufferSize ∧
      m.s.port.rxBuffer[m.s.port.rxBufferSize - m.s.rxDMAPos]? = some ch ∧
      m1.s.rxDMAPos = (if 1 < m.s.rxDMAPos then m.s.rxDMAPos - 1 else m.s.port.rxBufferSize) ∧
      1 ≤ m1.s.rxDMAPos ∧ m1.s.rxDMAPos ≤ m1.s.port.rxBufferSize ∧ m1.s.rxDMAPos ≠ 0 ∧
      m1.s = { m.s with rxDMAPos := m1.s.rxDMAPos } := by
  obtain ⟨tr, h⟩ := uartRead_dma_eq USE_DMA m hdma h32 hlen h1 h2
  have hl : m.s.port.rxBufferSize - m.s.rxDMAPos < m.s.port.rxBuffer.length := by omega
  refine ⟨_, _, h, by omega, ?_, ?_, ?_, ?_, ?_, rfl⟩
  · simp [List.getD_eq_getElem?_getD, List.getElem?_eq_getElem hl]
  · show (if m.s.rxDMAPos = 1 then m.s.port.rxBufferSize else m.s.rxDMAPos - 1) = _
    split_ifs <;> omega
  · show 1 ≤ (if m.s.rxDMAPos = 1 then m.s.port.rxBufferSize else m.s.rxDMAPos - 1)
    split_ifs <;> omega
  · show (if m.s.rxDMAPos = 1 then m.s.port.rxBufferSize else m.s.rxDMAPos - 1) ≤
      m.s.port.rxBufferSize
    split_ifs <;> omega
  · show (if m.s.rxDMAPos = 1 then m.s.port.rxBufferSize else m.s.rxDMAPos - 1) ≠ 0
    split_ifs <;> omega

/-- Witness of C8: size 16 over storage `0, 1, .., 15`.  With the cursor at 1
the read returns the byte at index 15 and the cursor wraps to 16; with the
cursor at 16 it returns the byte at index 0 and the cursor becomes 15. -/
theorem uartRead_dma_step_witness :
    (uartRead true { s := rxDmaPort16 1, trace := [] }).map
        (fun p => (p.1, p.2.s.rxDMAPos)) = some (15, 16) ∧
      (uartRead true { s := rxDmaPort16 16, trace := [] }).map
        (fun p => (p.1, p.2.s.rxDMAPos)) = some (0, 15) := by
  obtain ⟨ch, m1, hr, _, hch, hpos, _⟩ :=
    uartRead_dma_step true { s := rxDmaPort16 1, trace := [] } (by decide) (by decide)
      (by decide) (by decide) (by decide)
  have e : ch = 15 := by
    have : (rxDmaPort16 1).port.rxBuffer[(rxDmaPort16 1).port.rxBufferSize -
        (rxDmaPort16 1).rxDMAPos]? = some 15 := by decide
    exact Option.some.inj (hch.symm.trans this)
  refine ⟨?_, by decide⟩
  rw [hr]
  show some (ch, m1.s.rxDMAPos) = some (15, 16)
  rw [e, hpos]
  rfl

/-- C9 (DMA cursor countdown).  On a port with receive DMA of capacity
`N = rxBufferSize ≥ 1` (a `uint32_t` no larger than the storage), starting with
`rxDMAPos = N`: any number `i` of consecutive reads returns, and read number
`j` (from 0) of them returns the byte stored at index `j mod N`; after `i`
reads the cursor is `N - i mod N`, so the next read loads from index
`i mod N`.  Hence every window of `N` consecutive reads, wherever it starts,
visits each index of `[0, N)` exactly once, and after exactly `N` reads the
cursor is `N` again. -/
theorem uartRead_dma_countdown (USE_DMA : Bool) (m : Machine)
    (hdma : usesRxDMA USE_DMA m.s = true) (hN : 1 ≤ m.s.port.rxBufferSize)
    (h32 : m.s.port.rxBufferSize < 4294967296)
    (hlen : m.s.port.rxBufferSize ≤ m.s.port.rxBuffer.length)
    (hpos : m.s.rxDMAPos = m.s.port.rxBufferSize) :
    (∀ i : Nat, ∃ mi : Machine,
      uartReadN USE_DMA i m =
        some ((List.range i).map (fun j => m.s.port.rxBuffer.getD (j % m.s.port.rxBufferSize) 0),
          mi) ∧
      mi.s.rxDMAPos = m.s.port.rxBufferSize - i % m.s.port.rxBufferSize ∧
      dmaReadIndex USE_DMA m i = some (i % m.s.port.rxBufferSize) ∧
      ∃ m1 : Machine, uartRead USE_DMA mi =
        some (m.s.port.rxBuffer.getD (i % m.s.port.rxBufferSize) 0, m1)) ∧
    (∀ k idx : Nat, idx < m.s.port.rxBufferSize →
      ∃! j, j < m.s.port.rxBufferSize ∧ dmaReadIndex USE_DMA m (k + j) = some idx) ∧
    (∃ (chs : List uint8_t) (mN : Machine),
      uartReadN USE_DMA m.s.port.rxBufferSize m = some (chs, mN) ∧
        mN.s.rxDMAPos = m.s.port.rxBufferSize) := by
  have key : ∀ i : Nat, ∃ tr : List Event,
      uartReadN USE_DMA i m =
        some ((List.range i).map (fun j => m.s.port.rxBuffer.getD (j % m.s.port.rxBufferSize) 0),
          { s := { m.s with rxDMAPos := m.s.port.rxBufferSize - i % m.s.port.rxBufferSize },
            trace := tr }) := by
    intro i
    obtain ⟨tr, h⟩ := uartReadN_dma USE_DMA m.s.port.rxBufferSize m.s.port.rxBuffer h32 hlen i m
      hdma rfl rfl (by omega) (by omega)
    refine ⟨tr, ?_⟩
    rw [h, hpos]
    simp only [Nat.sub_self, Nat.zero_add]
  have hidx : ∀ i : Nat, dmaReadIndex USE_DMA m i = some (i % m.s.port.rxBufferSize) := by
    intro i
    obtain ⟨tr, h⟩ := key i
    have hlt := Nat.mod_lt i (show 0 < m.s.port.rxBufferSize by omega)
    simp only [dmaReadIndex, h, Option.map_some', sub32]
    congr 1
    omega
  refine ⟨fun i => ?_, fun k idx hidxlt => ?_, ?_⟩
  · obtain ⟨tr, h⟩ := key i
    have hlt := Nat.mod_lt i (show 0 < m.s.port.rxBufferSize by omega)
    refine ⟨_, h, rfl, hidx i, ?_⟩
    obtain ⟨tr1, h1⟩ := uartRead_dma_eq USE_DMA
      { s := { m.s with rxDMAPos := m.s.port.rxBufferSize - i % m.s.port.rxBufferSize },
        trace := tr } hdma h32 hlen (show 1 ≤ m.s.port.rxBufferSize - i % m.s.port.rxBufferSize
          by omega) (show m.s.port.rxBufferSize - i % m.s.port.rxBufferSize ≤
          m.s.port.rxBufferSize by omega)
    have e : m.s.port.rxBufferSize - (m.s.port.rxBufferSize - i % m.s.port.rxBufferSize) =
        i % m.s.port.rxBufferSize := by omega
    dsimp only at h1
    rw [e] at h1
    exact ⟨_, h1⟩
  · obtain ⟨j, ⟨hj, hje⟩, huniq⟩ := mod_window m.s.port.rxBufferSize k idx hidxlt
    refine ⟨j, ⟨hj, by rw [hidx, hje]⟩, ?_⟩
    rintro j1 ⟨hj1, hj1e⟩
    rw [hidx] at hj1e
    exact huniq j1 ⟨hj1, Option.some.inj hj1e⟩
  · obtain ⟨tr, h⟩ := key m.s.port.rxBufferSize
    refine ⟨_, _, h, ?_⟩
    show m.s.port.rxBufferSize - m.s.port.rxBufferSize % m.s.port.rxBufferSize = _
    rw [Nat.mod_self, Nat.sub_zero]

set_option maxRecDepth 100000 in
/-- Witness of C9: capacity 16 over storage `0, 1, .., 15`, cursor at 16.
Eighteen reads return the bytes at indices `0, 1, .., 15, 0, 1`, and the
cursor, which went `16, 15, .., 1, 16, 15`, is then 14. -/
theorem uartRead_dma_countdown_witness :
    (uartReadN true 18 { s := rxDmaPort16 16, trace := [] }).map
        (fun p => (p.1, p.2.s.rxDMAPos)) =
      some ([0, 1, 2, 3, 4, 5, 6, 7, 8, 9, 10, 11, 12, 13, 14, 15, 0, 1], 14) := by
  obtain ⟨mi, hr, hp, _⟩ :=
    (uartRead_dma_countdown true { s := rxDmaPort16 16, trace := [] } (by decide) (by decide)
      (by decide) (by decide) (by decide)).1 18
  rw [hr]
  show some ((List.range 18).map
      (fun j => (rxDmaPort16 16).port.rxBuffer.getD (j % (rxDmaPort16 16).port.rxBufferSize) 0),
      mi.s.rxDMAPos) = _
  rw [hp]
  decide

/-- What the code does where C10 expects a decrease: on a port with receive
DMA whose cursor and hardware count are in `[1, rxBufferSize]`, one `uartRead`
with the hardware count unchanged moves the report of
`uartTotalRxBytesWaiting` from `w` to `w + 1`, wrapping from
`rxBufferSize - 1` to 0. -/
theorem uartRead_dma_waiting_increases (USE_DMA : Bool) (m : Machine) (rxDMAHead : Nat)
    (hdma : usesRxDMA USE_DMA m.s = true) (h32 : m.s.port.rxBufferSize < 4294967296)
    (hlen : m.s.port.rxBufferSize ≤ m.s.port.rxBuffer.length)
    (h1 : 1 ≤ m.s.rxDMAPos) (h2 : m.s.rxDMAPos ≤ m.s.port.rxBufferSize)
    (c1 : 1 ≤ rxDMAHead) (c2 : rxDMAHead ≤ m.s.port.rxBufferSize) :
    ∃ (ch : uint8_t) (m1 : Machine), uartRead USE_DMA m = some (ch, m1) ∧
      uartTotalRxBytesWaiting USE_DMA rxDMAHead m1.s =
        (if uartTotalRxBytesWaiting USE_DMA rxDMAHead m.s + 1 = m.s.port.rxBufferSize then 0
         else uartTotalRxBytesWaiting USE_DMA rxDMAHead m.s + 1) := by
  obtain ⟨tr, h⟩ := uartRead_dma_eq USE_DMA m hdma h32 hlen h1 h2
  refine ⟨_, _, h, ?_⟩
  have hp1 : 1 ≤ (if m.s.rxDMAPos = 1 then m.s.port.rxBufferSize else m.s.rxDMAPos - 1) := by
    split_ifs <;> omega
  have hp2 : (if m.s.rxDMAPos = 1 then m.s.port.rxBufferSize else m.s.rxDMAPos - 1) ≤
      m.s.port.rxBufferSize := by
    split_ifs <;> omega
  have hw0 := rxWaiting_dma_eq USE_DMA rxDMAHead m.s hdma h32 c1 c2 h1 h2
  have hw1 := rxWaiting_dma_eq USE_DMA rxDMAHead
    { m.s with rxDMAPos := if m.s.rxDMAPos = 1 then m.s.port.rxBufferSize
                           else m.s.rxDMAPos - 1 } hdma h32 c1 c2 hp1 hp2
  rw [hw0]
  refine hw1.trans ?_
  dsimp only
  split_ifs <;> omega

/-- C10 at the failing input: receive DMA, `rxBufferSize = 16`, cursor 16
(nothing consumed), hardware count 13 (three bytes received).
`uartTotalRxBytesWaiting` reports 13; after one, two and three reads with the
hardware count unchanged it reports 14, 15 and 0: the report grows by one per
read instead of shrinking, and a loop reading while it is positive stops
after 3 reads, not after 13. -/
theorem uartRead_dma_drain_at_failing_input :
    usesRxDMA true (rxDmaPort16 16) = true ∧
      uartTotalRxBytesWaiting true 13 (rxDmaPort16 16) = 13 ∧
      (uartRead true { s := rxDmaPort16 16, trace := [] }).map
          (fun p => uartTotalRxBytesWaiting true 13 p.2.s) = some 14 ∧
      (List.range 4).map (fun i =>
          (uartReadN true i { s := rxDmaPort16 16, trace := [] }).map
            (fun p => uartTotalRxBytesWaiting true 13 p.2.s)) =
        [some 13, some 14, some 15, some 0] := by
  decide

/-- C11, as stated, fails: a transmit ring of size 16 holding `'a'..'p'` in
its storage, full with `txBufferHead = 15` and `txBufferTail = 0`.  After
`uartWrite('X')` the byte at index `txBufferTail` is still `'a'` (97), not
`'X'` (88); the `'X'` is at index 15. -/
theorem uartWrite_full_overwrite_counterexample :
    wrapSub (txPort16Letters 15 0).port.txBufferSize (txPort16Letters 15 0).port.txBufferHead
        (txPort16Letters 15 0).port.txBufferTail = 16 - 1 ∧
      (uartWrite inertExternals false { s := txPort16Letters 15 0, trace := [] } 88).map
          (fun m => (m.s.port.txBuffer[m.s.port.txBufferTail]?, m.s.port.txBuffer[15]?)) =
        some (some 97, some 88) ∧
      (uartWrite inertExternals false { s := txPort16Letters 15 0, trace := [] } 88).map
          (fun m => m.s.port.txBuffer[m.s.port.txBufferTail]?) ≠ some (some 88) := by
  decide

/-- C11, amended (write on a full ring).  On a transmit ring of size
`N ≥ 2` (a `uint32_t` no larger than the storage) with indices below `N` that
is full (`(txBufferHead - txBufferTail) mod N = N - 1`), `uartWrite(ch)`
returns, and its buffer update stores `ch` at index `txBufferHead`, which is
the one slot kept empty and differs from `txBufferTail`; the byte at index
`txBufferTail`, the oldest unread one, and every other byte of the storage are
as before.  The descriptor so updated is the result on a port without transmit
DMA and is what `uartTryStartTxDMA` receives on a port with it. -/
theorem uartWrite_full_stores_in_reserved_slot (E : Externals) (USE_DMA : Bool) (m : Machine)
    (ch : uint8_t) (hN : 2 ≤ m.s.port.txBufferSize) (h32 : m.s.port.txBufferSize < 4294967296)
    (hlen : m.s.port.txBufferSize ≤ m.s.port.txBuffer.length)
    (hh : m.s.port.txBufferHead < m.s.port.txBufferSize)
    (ht : m.s.port.txBufferTail < m.s.port.txBufferSize)
    (hfull : wrapSub m.s.port.txBufferSize m.s.port.txBufferHead m.s.port.txBufferTail =
      m.s.port.txBufferSize - 1) :
    ∃ (m1 : Machine) (pre : uartPort_t),
      uartWrite E USE_DMA m ch = some m1 ∧
      m1.s = (if usesTxDMA USE_DMA m.s then E.uartTryStartTxDMA pre else pre) ∧
      m.s.port.txBufferHead ≠ m.s.port.txBufferTail ∧
      pre.port.txBuffer[m.s.port.txBufferHead]? = some ch ∧
      pre.port.txBuffer[m.s.port.txBufferTail]? = m.s.port.txBuffer[m.s.port.txBufferTail]? ∧
      (∀ i : Nat, i ≠ m.s.port.txBufferHead →
        pre.port.txBuffer[i]? = m.s.port.txBuffer[i]?) ∧
      pre.port.txBufferTail = m.s.port.txBufferTail := by
  obtain ⟨hne, _⟩ := full_head_ne_tail _ _ _ hN hh ht hfull
  have hl : m.s.port.txBufferHead < m.s.port.txBuffer.length := by omega
  refine ⟨_, txPushed m.s ch, uartWrite_eq E USE_DMA m ch hl (by omega), ?_, hne, ?_, ?_, ?_, rfl⟩
  · split <;> rfl
  · simp [txPushed, List.getElem?_set_self, hl]
  · simp [txPushed, List.getElem?_set_ne hne]
  · intro i hi
    simp [txPushed, List.getElem?_set_ne (Ne.symm hi)]

/-- Witness of C11 amended: the full ring of size 16 holding `'a'..'p'`, with
`txBufferHead = 15` and `txBufferTail = 0`: after `uartWrite('X')` index 15
holds `'X'` and index 0 still holds `'a'`. -/
theorem uartWrite_full_stores_in_reserved_slot_witness :
    (uartWrite inertExternals false { s := txPort16Letters 15 0, trace := [] } 88).map
        (fun m1 => (m1.s.port.txBuffer[15]?, m1.s.port.txBuffer[0]?)) =
      some (some 88, some 97) := by
  obtain ⟨m1, pre, hw, hs, _, h15, h0, _⟩ :=
    uartWrite_full_stores_in_reserved_slot inertExternals false
      { s := txPort16Letters 15 0, trace := [] } 88 (by decide) (by decide) (by decide)
      (by decide) (by decide) (by decide)
  have hs1 : m1.s = pre := hs
  rw [hw]
  show some (m1.s.port.txBuffer[15]?, m1.s.port.txBuffer[0]?) = _
  rw [hs1]
  have h15a : pre.port.txBuffer[15]? = some 88 := h15
  have h0a : pre.port.txBuffer[0]? = some 97 := h0.trans (by decide)
  rw [h15a, h0a]

/-- C12 (frame of the foreground operations).
`uartWrite`, when its store is inside the storage, returns, and its own buffer
update changes only the byte at index `txBufferHead` of the transmit storage
and `txBufferHead`: `txBufferTail`, every other transmit byte and all receive
state are as before, and its trace is the two stores followed by the
transmitter start.  `uartRead`, when its load is inside the storage, returns
and changes only `rxBufferTail` in interrupt mode and only `rxDMAPos` in DMA
mode; in both modes `rxBufferHead`, the receive storage and all transmit state
are as before.  `uartTotalRxBytesWaiting`, `uartTotalTxBytesFree` and
`isUartTransmitBufferEmpty` leave the machine as it is. -/
theorem uart_foreground_frame (E : Externals) (USE_DMA : Bool) (m : Machine) (ch : uint8_t)
    (c : Nat) :
    (m.s.port.txBufferHead < m.s.port.txBuffer.length →
      m.s.port.txBufferHead + 1 < 4294967296 →
      ∃ (m1 : Machine) (pre : uartPort_t) (start : Event),
        uartWrite E USE_DMA m ch = some m1 ∧
        m1.s = (if usesTxDMA USE_DMA m.s then E.uartTryStartTxDMA pre else pre) ∧
        pre =
          { m.s with
            port :=
              { m.s.port with
                txBuffer := pre.port.txBuffer, txBufferHead := pre.port.txBufferHead } } ∧
        pre.port.txBuffer = m.s.port.txBuffer.set m.s.port.txBufferHead ch ∧
        (∀ i : Nat, i ≠ m.s.port.txBufferHead →
          pre.port.txBuffer[i]? = m.s.port.txBuffer[i]?) ∧
        pre.port.txBufferTail = m.s.port.txBufferTail ∧
        pre.port.rxBuffer = m.s.port.rxBuffer ∧
        pre.port.rxBufferHead = m.s.port.rxBufferHead ∧
        pre.port.rxBufferTail = m.s.port.rxBufferTail ∧
        pre.rxDMAPos = m.s.rxDMAPos ∧
        m1.trace = m.trace ++
          [Event.storeTxBuffer m.s.port.txBufferHead ch,
           Event.store Field.txBufferHead pre.port.txBufferHead, start] ∧
        start = (if usesTxDMA USE_DMA m.s then Event.uartTryStartTxDMA pre
                 else Event.enableTXE)) ∧
    (usesRxDMA USE_DMA m.s = false →
      m.s.port.rxBufferTail < m.s.port.rxBuffer.length →
      ∃ (ch1 : uint8_t) (m1 : Machine),
        uartRead USE_DMA m = some (ch1, m1) ∧
        m1.s = { m.s with port := { m.s.port with rxBufferTail := m1.s.port.rxBufferTail } } ∧
        m1.trace = m.trace ++ [Event.store Field.rxBufferTail m1.s.port.rxBufferTail]) ∧
    (usesRxDMA USE_DMA m.s = true →
      sub32 m.s.port.rxBufferSize m.s.rxDMAPos < m.s.port.rxBuffer.length →
      ∃ (ch1 : uint8_t) (m1 : Machine) (stores : List Event),
        uartRead USE_DMA m = some (ch1, m1) ∧
        m1.s = { m.s with rxDMAPos := m1.s.rxDMAPos } ∧
        m1.trace = m.trace ++ stores ∧
        ∀ e ∈ stores, ∃ v : Nat, e = Event.store Field.rxDMAPos v) ∧
    (∀ (ch1 : uint8_t) (m1 : Machine), uartRead USE_DMA m = some (ch1, m1) →
      m1.s.port.rxBufferHead = m.s.port.rxBufferHead ∧
      m1.s.port.rxBuffer = m.s.port.rxBuffer ∧
      m1.s.port.txBuffer = m.s.port.txBuffer ∧
      m1.s.port.txBufferHead = m.s.port.txBufferHead ∧
      m1.s.port.txBufferTail = m.s.port.txBufferTail ∧
      m1.s.txDMAEmpty = m.s.txDMAEmpty) ∧
    (m.query (uartTotalRxBytesWaiting USE_DMA c)).2 = m ∧
    (m.query (uartTotalTxBytesFree USE_DMA c)).2 = m ∧
    (m.query (isUartTransmitBufferEmpty USE_DMA)).2 = m := by
  refine ⟨?_, ?_, ?_, ?_, rfl, rfl, rfl⟩
  · intro hl h32
    refine ⟨_, txPushed m.s ch, _, uartWrite_eq E USE_DMA m ch hl h32, ?_, rfl, rfl, ?_, rfl,
      rfl, rfl, rfl, rfl, ?_, rfl⟩
    · split <;> rfl
    · intro i hi
      exact List.getElem?_set_ne (Ne.symm hi)
    · split <;> rfl
  · intro hdma hl
    exact uartRead_irq_frame USE_DMA m hdma hl
  · intro hdma hl
    exact uartRead_dma_frame USE_DMA m hdma hl
  · intro ch1 m1 h
    exact uartRead_frame USE_DMA m ch1 m1 h

/-- Witness of C12: on `busyPort` (no DMA) a write of `'X'` puts it at
transmit index 15 and leaves `txBufferTail`, `rxBufferHead`, `rxBufferTail` and
`rxDMAPos` at 4, 9, 15 and 7; a read changes only `rxBufferTail`; on
`busyDmaPort` a read changes only `rxDMAPos`. -/
theorem uart_foreground_frame_witness :
    (uartWrite inertExternals false { s := busyPort, trace := [] } 88).map
        (fun m1 => (m1.s.port.txBuffer[15]?, [m1.s.port.txBufferTail, m1.s.port.rxBufferHead,
          m1.s.port.rxBufferTail, m1.s.rxDMAPos])) = some (some 88, [4, 9, 15, 7]) ∧
      (uartRead false { s := busyPort, trace := [] }).map (fun p => p.2.s) =
        some { busyPort with port := { busyPort.port with rxBufferTail := 0 } } ∧
      (uartRead true { s := busyDmaPort, trace := [] }).map (fun p => p.2.s) =
        some { busyDmaPort with rxDMAPos := 6 } := by
  have h := uart_foreground_frame inertExternals false { s := busyPort, trace := [] } 88 0
  obtain ⟨m1, pre, start, hw, hs, _, hbuf, _, ht, _, hrh, hrt, hpos, _⟩ :=
    h.1 (by decide) (by decide)
  have hs1 : m1.s = pre := hs
  refine ⟨?_, by decide, by decide⟩
  rw [hw]
  show some (m1.s.port.txBuffer[15]?, [m1.s.port.txBufferTail, m1.s.port.rxBufferHead,
          m1.s.port.rxBufferTail, m1.s.rxDMAPos]) = _
  rw [hs1, hbuf, ht, hrh, hrt, hpos]
  decide

/-- C13, as stated, fails: on an idle port, the trace of `uartSetBaudRate`
with 9600 is the store of `baudRate` followed by the call of
`uartReconfigure`, and the trace of `uartSetMode` is the store of `mode`
followed by that call: in both the field is written before the routine that
quiesces the hardware is entered. -/
theorem uartSetBaudRate_order_counterexample :
    (uartSetBaudRate inertExternals { s := txPort16 0 0, trace := [] } 9600).trace =
        [Event.store Field.baudRate 9600,
         Event.uartReconfigure (Field.baudRate.assign 9600 (txPort16 0 0))] ∧
      noStoreBeforeReconfigure
        (uartSetBaudRate inertExternals { s := txPort16 0 0, trace := [] } 9600).trace = false ∧
      (uartSetMode inertExternals { s := txPort16 0 0, trace := [] } 3).trace =
        [Event.store Field.mode 3,
         Event.uartReconfigure (Field.mode.assign 3 (txPort16 0 0))] ∧
      noStoreBeforeReconfigure
        (uartSetMode inertExternals { s := txPort16 0 0, trace := [] } 3).trace = false := by
  decide

/-- C13, amended (order of reconfiguration).  The trace that `uartSetBaudRate`
adds is the store of `port.baudRate` followed by one call of
`uartReconfigure` on the descriptor so updated, and the trace that
`uartSetMode` adds is the store of `port.mode` followed by one such call: the
descriptor field is written first and the routine inside which the hardware is
quiesced is entered after it; nothing else happens before the store. -/
theorem uartSet_store_then_reconfigure (E : Externals) (m : Machine) (v : Nat) :
    (uartSetBaudRate E m v).trace =
        m.trace ++ [Event.store Field.baudRate v,
          Event.uartReconfigure (Field.baudRate.assign v m.s)] ∧
      (uartSetMode E m v).trace =
        m.trace ++ [Event.store Field.mode v,
          Event.uartReconfigure (Field.mode.assign v m.s)] ∧
      noStoreBeforeReconfigure [Event.store Field.baudRate v,
          Event.uartReconfigure (Field.baudRate.assign v m.s)] = false ∧
      noStoreBeforeReconfigure [Event.store Field.mode v,
          Event.uartReconfigure (Field.mode.assign v m.s)] = false := by
  refine ⟨?_, ?_, rfl, rfl⟩
  · show (m.trace ++ [_]) ++ [_] = _
    rw [List.append_assoc]
    rfl
  · show (m.trace ++ [_]) ++ [_] = _
    rw [List.append_assoc]
    rfl

/-- C14 (wraparound stability).  With sizes that are `uint32_t` values no
larger than the storage: if `txBufferHead < txBufferSize`, `uartWrite` returns
and its buffer update leaves `txBufferHead = (old + 1) mod txBufferSize`, again
below `txBufferSize`; on a port without receive DMA, if
`rxBufferTail < rxBufferSize`, `uartRead` returns and leaves
`rxBufferTail = (old + 1) mod rxBufferSize`, again below `rxBufferSize`.
Hence from such a state every sequence of writes and interrupt-mode reads, of
any length, runs to the end with every access inside the storage, and
`txBufferHead` and `rxBufferTail` are still below their sizes; with transmit
DMA this takes that `uartTryStartTxDMA` leaves alone what the foreground
owns. -/
theorem uart_indices_stay_in_range (E : Externals) (USE_DMA : Bool) (m : Machine) :
    (m.s.port.txBufferHead < m.s.port.txBufferSize →
      m.s.port.txBufferSize ≤ m.s.port.txBuffer.length →
      m.s.port.txBufferSize < 4294967296 →
      ∀ ch : uint8_t, ∃ (m1 : Machine) (pre : uartPort_t),
        uartWrite E USE_DMA m ch = some m1 ∧
        m1.s = (if usesTxDMA USE_DMA m.s then E.uartTryStartTxDMA pre else pre) ∧
        pre.port.txBufferHead = (m.s.port.txBufferHead + 1) % m.s.port.txBufferSize ∧
        pre.port.txBufferHead < m.s.port.txBufferSize) ∧
    (usesRxDMA USE_DMA m.s = false →
      m.s.port.rxBufferTail < m.s.port.rxBufferSize →
      m.s.port.rxBufferSize ≤ m.s.port.rxBuffer.length →
      m.s.port.rxBufferSize < 4294967296 →
      ∃ (ch : uint8_t) (m1 : Machine),
        uartRead USE_DMA m = some (ch, m1) ∧
        m1.s.port.rxBufferTail = (m.s.port.rxBufferTail + 1) % m.s.port.rxBufferSize ∧
        m1.s.port.rxBufferTail < m.s.port.rxBufferSize) ∧
    ((usesTxDMA USE_DMA m.s = false ∨ E.tryStartKeepsForeground) →
      ForegroundInBounds USE_DMA m →
      ∀ ops : List PortOp, ∃ m1 : Machine,
        runPort E USE_DMA m ops = some m1 ∧
        m1.s.port.txBufferSize = m.s.port.txBufferSize ∧
        m1.s.port.rxBufferSize = m.s.port.rxBufferSize ∧
        m1.s.port.txBufferHead < m.s.port.txBufferSize ∧
        m1.s.port.rxBufferTail < m.s.port.rxBufferSize) := by
  refine ⟨?_, ?_, ?_⟩
  · intro h1 h2 h3 ch
    have hhead : (txPushed m.s ch).port.txBufferHead =
        (m.s.port.txBufferHead + 1) % m.s.port.txBufferSize := wrap_succ_eq_mod _ _ h1
    refine ⟨_, txPushed m.s ch, uartWrite_eq E USE_DMA m ch (by omega) (by omega), ?_, hhead, ?_⟩
    · split <;> rfl
    · rw [hhead]
      exact Nat.mod_lt _ (by omega)
  · intro hd h1 h2 h3
    have hr := uartRead_irq_cases USE_DMA m hd (by omega)
    have e : add32 m.s.port.rxBufferTail 1 = m.s.port.rxBufferTail + 1 := by
      simp only [add32]; omega
    rw [e, wrap_succ_eq_mod _ _ h1] at hr
    have hlt := Nat.mod_lt (m.s.port.rxBufferTail + 1) (show 0 < m.s.port.rxBufferSize by omega)
    generalize (m.s.port.rxBufferTail + 1) % m.s.port.rxBufferSize = t at hr hlt
    exact ⟨_, _, hr, rfl, hlt⟩
  · intro hE h ops
    obtain ⟨m1, hrun, hb, ht, hr⟩ := runPort_inBounds E USE_DMA ops m hE h
    refine ⟨m1, hrun, ht, hr, ?_, ?_⟩
    · rw [← ht]
      exact hb.1
    · rw [← hr]
      exact hb.2.2.2.1

set_option maxRecDepth 100000 in
/-- Witness of C14: on `busyPort` (rings of 16, `txBufferHead = 15`,
`rxBufferTail = 15`) one write and one read wrap both indices to 0, and after
25 writes and 20 reads `txBufferHead` is 8 and `rxBufferTail` is 3. -/
theorem uart_indices_stay_in_range_witness :
    (uartWrite inertExternals false { s := busyPort, trace := [] } 88).map
        (fun m1 => m1.s.port.txBufferHead) = some 0 ∧
      (uartRead false { s := busyPort, trace := [] }).map
        (fun p => p.2.s.port.rxBufferTail) = some 0 ∧
      (runPort inertExternals false { s := busyPort, trace := [] } fortyFiveOps).map
        (fun m1 => (m1.s.port.txBufferHead, m1.s.port.rxBufferTail)) = some (8, 3) := by
  have h := uart_indices_stay_in_range inertExternals false { s := busyPort, trace := [] }
  obtain ⟨m1, pre, hw, hs, hhead, _⟩ := h.1 (by decide) (by decide) (by decide) 88
  obtain ⟨ch, m2, hr, htail, _⟩ := h.2.1 (by decide) (by decide) (by decide) (by decide)
  obtain ⟨m3, hrun, _, _, _, _⟩ := h.2.2 (Or.inl (by decide))
    ⟨by decide, by decide, by decide, by decide, by decide, by decide, by decide⟩ fortyFiveOps
  have hs1 : m1.s = pre := hs
  refine ⟨?_, ?_, by decide⟩
  · rw [hw]
    show some m1.s.port.txBufferHead = _
    rw [hs1, hhead]
    decide
  · rw [hr]
    show some m2.s.port.rxBufferTail = _
    rw [htail]
    decide

/-- C15 (transmit arming, scenario B).  On a port without transmit DMA whose
transmit ring has size `N ≥ 2` (a `uint32_t` no larger than the storage) and is
idle (`txBufferHead == txBufferTail < N`), one `uartWrite(ch)` returns; what it
adds to the trace is the two stores and then the enabling of the
transmit-register-empty interrupt, which is therefore the last thing done;
`isUartTransmitBufferEmpty` is then false, exactly one byte is occupied and
`ch` is at the old head; and once `txBufferTail` has been advanced by one with
wraparound, with no further write, `isUartTransmitBufferEmpty` is true again.
On a port with transmit DMA, `uartWrite` adds to the trace the two stores and
one call of `uartTryStartTxDMA`, and no enabling of the interrupt. -/
theorem uartWrite_arms_transmitter (E : Externals) (USE_DMA : Bool) (m : Machine)
    (ch : uint8_t) :
    (usesTxDMA USE_DMA m.s = false → 2 ≤ m.s.port.txBufferSize →
      m.s.port.txBufferSize < 4294967296 →
      m.s.port.txBufferSize ≤ m.s.port.txBuffer.length →
      m.s.port.txBufferHead = m.s.port.txBufferTail →
      m.s.port.txBufferTail < m.s.port.txBufferSize →
      ∃ (m1 : Machine) (added : List Event),
        uartWrite E USE_DMA m ch = some m1 ∧
        m1.trace = m.trace ++ added ∧
        added.getLast? = some Event.enableTXE ∧
        added.countP Event.isTryStartTxDMA = 0 ∧
        isUartTransmitBufferEmpty USE_DMA m1.s = false ∧
        txBytesUsed m1.s = 1 ∧
        m1.s.port.txBuffer[m.s.port.txBufferHead]? = some ch ∧
        isUartTransmitBufferEmpty USE_DMA
          { m1.s with
            port := { m1.s.port with
              txBufferTail := (m1.s.port.txBufferTail + 1) % m1.s.port.txBufferSize } } =
          true) ∧
    (usesTxDMA USE_DMA m.s = true →
      m.s.port.txBufferHead < m.s.port.txBuffer.length →
      m.s.port.txBufferHead + 1 < 4294967296 →
      ∃ (m1 : Machine) (pre : uartPort_t) (added : List Event),
        uartWrite E USE_DMA m ch = some m1 ∧
        m1.s = E.uartTryStartTxDMA pre ∧
        m1.trace = m.trace ++ added ∧
        added = [Event.storeTxBuffer m.s.port.txBufferHead ch,
          Event.store Field.txBufferHead pre.port.txBufferHead,
          Event.uartTryStartTxDMA pre] ∧
        added.countP Event.isTryStartTxDMA = 1 ∧
        added.countP Event.isEnableTXE = 0) := by
  constructor
  · intro hd hN h32 hlen hidle ht
    have hh : m.s.port.txBufferHead < m.s.port.txBufferSize := by omega
    have hl : m.s.port.txBufferHead < m.s.port.txBuffer.length := by omega
    have hw := uartWrite_eq E USE_DMA m ch hl (by omega)
    rw [hd] at hw
    simp only [Bool.false_eq_true, if_false] at hw
    have hd1 : usesTxDMA USE_DMA (txPushed m.s ch) = false := hd
    have hhead : (txPushed m.s ch).port.txBufferHead =
        (m.s.port.txBufferTail + 1) % m.s.port.txBufferSize := by
      rw [← hidle]
      exact wrap_succ_eq_mod _ _ hh
    have htail : (txPushed m.s ch).port.txBufferTail = m.s.port.txBufferTail := rfl
    have hsize : (txPushed m.s ch).port.txBufferSize = m.s.port.txBufferSize := rfl
    have hne : (m.s.port.txBufferTail + 1) % m.s.port.txBufferSize ≠ m.s.port.txBufferTail := by
      rw [← wrap_succ_eq_mod _ _ ht]
      split <;> omega
    refine ⟨_, _, hw, rfl, rfl, ?_, ?_, ?_, ?_, ?_⟩
    · simp [List.countP_cons, Event.isTryStartTxDMA]
    · rw [isUartTransmitBufferEmpty_irq _ _ hd1, htail, hhead]
      exact decide_eq_false (fun h => hne h.symm)
    · have hu := (txBytesUsed_eq (txPushed m.s ch) (by rw [hsize]; exact h32)
        (by rw [hsize, hhead]; exact Nat.mod_lt _ (by omega)) (by rw [hsize, htail]; exact ht)).1
      rw [hu, hsize, hhead, htail, ← wrap_succ_eq_mod _ _ ht,
        wrapSub_eq _ _ _ (by split <;> omega) (by split <;> omega)]
      split_ifs <;> omega
    · simp [txPushed, List.getElem?_set_self, hl]
    · have hd2 : usesTxDMA USE_DMA
          { txPushed m.s ch with
            port := { (txPushed m.s ch).port with
              txBufferTail := ((txPushed m.s ch).port.txBufferTail + 1) %
                (txPushed m.s ch).port.txBufferSize } } = false := hd
      rw [isUartTransmitBufferEmpty_irq _ _ hd2]
      apply decide_eq_true
      show (m.s.port.txBufferTail + 1) % m.s.port.txBufferSize =
        (txPushed m.s ch).port.txBufferHead
      exact hhead.symm
  · intro hd hl h32
    have hw := uartWrite_eq E USE_DMA m ch hl h32
    rw [hd] at hw
    simp only [if_true] at hw
    refine ⟨_, txPushed m.s ch, _, hw, rfl, rfl, rfl, ?_, ?_⟩
    · simp [List.countP_cons, Event.isTryStartTxDMA]
    · simp [List.countP_cons, Event.isEnableTXE]

/-- Witness of C15: an idle ring of 16 with both indices at 5.  Without DMA a
write of `'X'` ends with the interrupt enabled, the ring reads as not empty
with `'X'` at index 5, and reads as empty once `txBufferTail` is 6; with DMA
the write's trace holds one call of `uartTryStartTxDMA` and no interrupt
enable. -/
theorem uartWrite_arms_transmitter_witness :
    (uartWrite inertExternals false { s := txPort16 5 5, trace := [] } 88).map
        (fun m1 => (m1.trace.getLast?, isUartTransmitBufferEmpty false m1.s,
          m1.s.port.txBuffer[5]?,
          isUartTransmitBufferEmpty false
            { m1.s with port := { m1.s.port with txBufferTail := 6 } })) =
        some (some Event.enableTXE, false, some 88, true) ∧
      (uartWrite inertExternals true { s := idleTxDmaPort16, trace := [] } 88).map
        (fun m1 => (m1.trace.countP Event.isTryStartTxDMA,
          m1.trace.countP Event.isEnableTXE)) = some (1, 0) := by
  have h1 := (uartWrite_arms_transmitter inertExternals false
    { s := txPort16 5 5, trace := [] } 88).1 (by decide) (by decide) (by decide) (by decide)
    (by decide) (by decide)
  have h2 := (uartWrite_arms_transmitter inertExternals true
    { s := idleTxDmaPort16, trace := [] } 88).2 (by decide) (by decide) (by decide)
  obtain ⟨m1, added, hw, _⟩ := h1
  obtain ⟨m2, pre, added2, hw2, _, htr, _, hc1, hc0⟩ := h2
  refine ⟨by decide, ?_⟩
  rw [hw2]
  show some (m2.trace.countP Event.isTryStartTxDMA, m2.trace.countP Event.isEnableTXE) = _
  rw [htr, List.nil_append, hc1, hc0]

/-- C16 (mask and compare-and-add agree on powers of two).  For a buffer size
`N = 2^k` with `k ≤ 31` and indices below `N`, the count the code computes by
compare-and-add (`bytesUsed` of `uartTotalTxBytesFree`, and
`uartTotalRxBytesWaiting` on a port without receive DMA) equals the masked
count `(head - tail) & (N - 1)` with the subtractions modulo `2^32`.  For a
size `N` (a `uint32_t`, at least 1) that is not a power of two there are
indices below `N` at which the two differ. -/
theorem occupied_branch_eq_mask (USE_DMA : Bool) (c : Nat) (s : uartPort_t) :
    (∀ k : Nat, k ≤ 31 → s.port.txBufferSize = 2 ^ k →
      s.port.txBufferHead < s.port.txBufferSize → s.port.txBufferTail < s.port.txBufferSize →
      txBytesUsed s =
        maskedOccupied s.port.txBufferSize s.port.txBufferHead s.port.txBufferTail) ∧
    (∀ k : Nat, k ≤ 31 → s.port.rxBufferSize = 2 ^ k → usesRxDMA USE_DMA s = false →
      s.port.rxBufferHead < s.port.rxBufferSize → s.port.rxBufferTail < s.port.rxBufferSize →
      uartTotalRxBytesWaiting USE_DMA c s =
        maskedOccupied s.port.rxBufferSize s.port.rxBufferHead s.port.rxBufferTail) ∧
    (1 ≤ s.port.txBufferSize → s.port.txBufferSize < 4294967296 →
      (¬ ∃ k : Nat, s.port.txBufferSize = 2 ^ k) →
      ∃ head tail : Nat, head < s.port.txBufferSize ∧ tail < s.port.txBufferSize ∧
        txBytesUsed { s with port := { s.port with txBufferHead := head, txBufferTail := tail } } ≠
          maskedOccupied s.port.txBufferSize head tail) ∧
    (1 ≤ s.port.rxBufferSize → s.port.rxBufferSize < 4294967296 →
      usesRxDMA USE_DMA s = false → (¬ ∃ k : Nat, s.port.rxBufferSize = 2 ^ k) →
      ∃ head tail : Nat, head < s.port.rxBufferSize ∧ tail < s.port.rxBufferSize ∧
        uartTotalRxBytesWaiting USE_DMA c
            { s with port := { s.port with rxBufferHead := head, rxBufferTail := tail } } ≠
          maskedOccupied s.port.rxBufferSize head tail) := by
  refine ⟨?_, ?_, ?_, ?_⟩
  · intro k hk hs hh ht
    have h32 : s.port.txBufferSize < 4294967296 := by
      have hle : 2 ^ k ≤ 2 ^ 31 := Nat.pow_le_pow_right (by decide) hk
      have h31 : (2 : Nat) ^ 31 = 2147483648 := by norm_num
      omega
    rw [(txBytesUsed_eq s h32 hh ht).1, wrapSub_eq _ _ _ (by omega) (by omega), hs,
      maskedOccupied_pow_two k _ _ hk (by omega) (by omega)]
  · intro k hk hs hd hh ht
    have h32 : s.port.rxBufferSize < 4294967296 := by
      have hle : 2 ^ k ≤ 2 ^ 31 := Nat.pow_le_pow_right (by decide) hk
      have h31 : (2 : Nat) ^ 31 = 2147483648 := by norm_num
      omega
    rw [hs, maskedOccupied_pow_two k _ _ hk (by omega) (by omega), ← hs]
    simp only [uartTotalRxBytesWaiting, hd, Bool.false_eq_true, if_false, sub32, add32,
      ge_iff_le]
    split_ifs <;> omega
  · intro h1 h32 hnp
    obtain ⟨k, hlo, hhi⟩ := not_pow_two_bracket _ h1 hnp
    have hz := and_complement_eq_zero (k + 1) s.port.txBufferSize (by omega) h1
    have hp : 2 ^ (k + 1) = 2 * 2 ^ k := by rw [pow_succ]; omega
    refine ⟨2 ^ (k + 1) - s.port.txBufferSize, 0, by omega, by omega, ?_⟩
    have e1 : sub32 (2 ^ (k + 1) - s.port.txBufferSize) 0 =
        2 ^ (k + 1) - s.port.txBufferSize := by
      simp only [sub32]
      omega
    have e2 : sub32 s.port.txBufferSize 1 = s.port.txBufferSize - 1 := by
      simp only [sub32]
      omega
    have e3 : txBytesUsed { s with port := { s.port with
        txBufferHead := 2 ^ (k + 1) - s.port.txBufferSize, txBufferTail := 0 } } =
        2 ^ (k + 1) - s.port.txBufferSize := by
      simp only [txBytesUsed, ge_iff_le, Nat.zero_le, if_true]
      exact e1
    rw [e3, maskedOccupied, e1, e2, hz]
    omega
  · intro h1 h32 hd hnp
    obtain ⟨k, hlo, hhi⟩ := not_pow_two_bracket _ h1 hnp
    have hz := and_complement_eq_zero (k + 1) s.port.rxBufferSize (by omega) h1
    have hp : 2 ^ (k + 1) = 2 * 2 ^ k := by rw [pow_succ]; omega
    refine ⟨2 ^ (k + 1) - s.port.rxBufferSize, 0, by omega, by omega, ?_⟩
    have e1 : sub32 (2 ^ (k + 1) - s.port.rxBufferSize) 0 =
        2 ^ (k + 1) - s.port.rxBufferSize := by
      simp only [sub32]
      omega
    have e2 : sub32 s.port.rxBufferSize 1 = s.port.rxBufferSize - 1 := by
      simp only [sub32]
      omega
    have hd1 : usesRxDMA USE_DMA { s with port := { s.port with
        rxBufferHead := 2 ^ (k + 1) - s.port.rxBufferSize, rxBufferTail := 0 } } = false := hd
    have e3 : uartTotalRxBytesWaiting USE_DMA c { s with port := { s.port with
        rxBufferHead := 2 ^ (k + 1) - s.port.rxBufferSize, rxBufferTail := 0 } } =
        2 ^ (k + 1) - s.port.rxBufferSize := by
      simp only [uartTotalRxBytesWaiting, hd1, Bool.false_eq_true, if_false, ge_iff_le,
        Nat.zero_le, if_true]
      exact e1
    rw [e3, maskedOccupied, e1, e2, hz]
    omega

/-- Witness of C16: at size 16 with head 2 and tail 14 both rules give 4; at
size 12 there are indices at which they differ (head 4, tail 0: 4 against
`4 & 11 = 0`). -/
theorem occupied_branch_eq_mask_witness :
    txBytesUsed (txPort16 2 14) = maskedOccupied 16 2 14 ∧
      maskedOccupied 16 2 14 = 4 ∧
      (∃ head tail : Nat, head < 12 ∧ tail < 12 ∧
        txBytesUsed
            { port12 with port := { port12.port with txBufferHead := head, txBufferTail := tail } } ≠
          maskedOccupied 12 head tail) ∧
      txBytesUsed { port12 with port := { port12.port with txBufferHead := 4, txBufferTail := 0 } } =
        4 ∧
      maskedOccupied 12 4 0 = 0 := by
  have hnp : ¬ ∃ k : Nat, port12.port.txBufferSize = 2 ^ k := by
    rintro ⟨k, hk⟩
    have hk1 : (12 : Nat) = 2 ^ k := hk
    have hlt : k < 4 := by
      by_contra hge
      have := Nat.pow_le_pow_right (show 0 < 2 by decide) (show 4 ≤ k by omega)
      omega
    interval_cases k <;> omega
  exact ⟨(occupied_branch_eq_mask false 0 (txPort16 2 14)).1 4 (by decide) (by decide)
      (by decide) (by decide), by decide,
    (occupied_branch_eq_mask false 0 port12).2.2.1 (by decide) (by decide) hnp,
    by decide, by decide⟩

/-- C17 (draining in interrupt mode).  On a port without receive DMA with
`rxBufferHead` and `rxBufferTail` below `rxBufferSize` (a `uint32_t` no larger
than the storage), let `w` be what `uartTotalRxBytesWaiting` reports.  If
`w > 0`, `uartRead` returns the byte stored at the old `rxBufferTail`, and
afterwards `uartTotalRxBytesWaiting` reports `w - 1` with `rxBufferHead`
unchanged.  And `w` consecutive reads return the `w` stored bytes in index
order from `rxBufferTail`, wrapping at the end of the storage, and leave
`uartTotalRxBytesWaiting` at 0. -/
theorem uartRead_irq_drains (USE_DMA : Bool) (c : Nat) (m : Machine)
    (hdma : usesRxDMA USE_DMA m.s = false) (h32 : m.s.port.rxBufferSize < 4294967296)
    (hlen : m.s.port.rxBufferSize ≤ m.s.port.rxBuffer.length)
    (hh : m.s.port.rxBufferHead < m.s.port.rxBufferSize)
    (ht : m.s.port.rxBufferTail < m.s.port.rxBufferSize) :
    (0 < uartTotalRxBytesWaiting USE_DMA c m.s →
      ∃ (ch : uint8_t) (m1 : Machine),
        uartRead USE_DMA m = some (ch, m1) ∧
        m.s.port.rxBuffer[m.s.port.rxBufferTail]? = some ch ∧
        uartTotalRxBytesWaiting USE_DMA c m1.s = uartTotalRxBytesWaiting USE_DMA c m.s - 1 ∧
        m1.s.port.rxBufferHead = m.s.port.rxBufferHead) ∧
    (∃ mw : Machine,
      uartReadN USE_DMA (uartTotalRxBytesWaiting USE_DMA c m.s) m =
        some ((List.range (uartTotalRxBytesWaiting USE_DMA c m.s)).map
            (fun i => m.s.port.rxBuffer.getD
              ((m.s.port.rxBufferTail + i) % m.s.port.rxBufferSize) 0), mw) ∧
      uartTotalRxBytesWaiting USE_DMA c mw.s = 0 ∧
      mw.s.port.rxBufferHead = m.s.port.rxBufferHead) := by
  have hw := rxWaiting_irq_eq USE_DMA c m.s hdma h32 hh ht
  constructor
  · intro hpos
    obtain ⟨tr, hr⟩ := uartRead_irq_mod USE_DMA m hdma h32 hlen ht
    have hl : m.s.port.rxBufferTail < m.s.port.rxBuffer.length := by omega
    have hlt := Nat.mod_lt (m.s.port.rxBufferTail + 1) (show 0 < m.s.port.rxBufferSize by omega)
    have hw1 := rxWaiting_irq_eq USE_DMA c
      { m.s with
        port := { m.s.port with
          rxBufferTail := (m.s.port.rxBufferTail + 1) % m.s.port.rxBufferSize } }
      hdma h32 hh hlt
    refine ⟨_, _, hr, ?_, ?_, rfl⟩
    · simp [List.getD_eq_getElem?_getD, List.getElem?_eq_getElem hl]
    · rw [hw1, hw]
      rw [hw] at hpos
      dsimp only
      rw [← wrap_succ_eq_mod _ _ ht]
      split_ifs at hpos ⊢ <;> omega
  · obtain ⟨tr, hr⟩ := uartReadN_irq USE_DMA m.s.port.rxBufferSize m.s.port.rxBuffer h32 hlen
      (uartTotalRxBytesWaiting USE_DMA c m.s) m hdma rfl rfl ht
    have htw : (m.s.port.rxBufferTail + uartTotalRxBytesWaiting USE_DMA c m.s) %
        m.s.port.rxBufferSize = m.s.port.rxBufferHead := by
      rw [hw]
      split_ifs with hle
      · rw [show m.s.port.rxBufferTail + (m.s.port.rxBufferHead - m.s.port.rxBufferTail) =
          m.s.port.rxBufferHead by omega, Nat.mod_eq_of_lt hh]
      · rw [show m.s.port.rxBufferTail +
            (m.s.port.rxBufferSize + m.s.port.rxBufferHead - m.s.port.rxBufferTail) =
          m.s.port.rxBufferSize + m.s.port.rxBufferHead by omega, Nat.add_mod_left,
          Nat.mod_eq_of_lt hh]
    rw [htw] at hr
    have hw1 := rxWaiting_irq_eq USE_DMA c
      { m.s with port := { m.s.port with rxBufferTail := m.s.port.rxBufferHead } }
      hdma h32 hh hh
    refine ⟨_, hr, ?_, rfl⟩
    rw [hw1]
    dsimp only
    simp

/-- Witness of C17: `busyPort` has receive size 16 over storage `'A'..'P'`,
`rxBufferHead = 9` and `rxBufferTail = 15`, so 10 bytes wait.  One read returns
`'P'` (index 15) and leaves 9 waiting; ten reads return the bytes at indices
`15, 0, 1, .., 8` and leave none waiting. -/
theorem uartRead_irq_drains_witness :
    uartTotalRxBytesWaiting false 0 busyPort = 10 ∧
      (uartRead false { s := busyPort, trace := [] }).map
          (fun p => (p.1, uartTotalRxBytesWaiting false 0 p.2.s)) = some (80, 9) ∧
      (uartReadN false 10 { s := busyPort, trace := [] }).map
          (fun p => (p.1, uartTotalRxBytesWaiting false 0 p.2.s)) =
        some ([80, 65, 66, 67, 68, 69, 70, 71, 72, 73], 0) := by
  have h := uartRead_irq_drains false 0 { s := busyPort, trace := [] } (by decide) (by decide)
    (by decide) (by decide) (by decide)
  have hw : uartTotalRxBytesWaiting false 0 busyPort = 10 := by decide
  obtain ⟨mw, hrun, hz, _⟩ := h.2
  refine ⟨hw, by decide, ?_⟩
  have hrun1 : uartReadN false 10 { s := busyPort, trace := [] } =
      some ((List.range 10).map (fun i => busyPort.port.rxBuffer.getD
        ((busyPort.port.rxBufferTail + i) % busyPort.port.rxBufferSize) 0), mw) := by
    have e := hrun
    rw [show uartTotalRxBytesWaiting false 0 ({ s := busyPort, trace := [] } : Machine).s = 10
      from hw] at e
    exact e
  rw [hrun1]
  show some ((List.range 10).map (fun i => busyPort.port.rxBuffer.getD
        ((busyPort.port.rxBufferTail + i) % busyPort.port.rxBufferSize) 0),
      uartTotalRxBytesWaiting false 0 mw.s) = _
  rw [hz]
  decide

/-- C18 (a write on a full ring makes it look empty).  On a port without
transmit DMA whose transmit ring has size `N ≥ 2` (a `uint32_t` no larger than
the storage), indices below `N` and `N - 1` bytes occupied:
`uartTotalTxBytesFree` is 0, and one more `uartWrite(ch)` returns, stores `ch`
at index `txBufferHead`, which differs from `txBufferTail`, and leaves
`txBufferHead == txBufferTail`; so right afterwards
`isUartTransmitBufferEmpty` is true and `uartTotalTxBytesFree` is `N - 1`. -/
theorem uartWrite_full_looks_empty (E : Externals) (USE_DMA : Bool) (c : Nat) (m : Machine)
    (ch : uint8_t) (hdma : usesTxDMA USE_DMA m.s = false)
    (hN : 2 ≤ m.s.port.txBufferSize) (h32 : m.s.port.txBufferSize < 4294967296)
    (hlen : m.s.port.txBufferSize ≤ m.s.port.txBuffer.length)
    (hh : m.s.port.txBufferHead < m.s.port.txBufferSize)
    (ht : m.s.port.txBufferTail < m.s.port.txBufferSize)
    (hfull : wrapSub m.s.port.txBufferSize m.s.port.txBufferHead m.s.port.txBufferTail =
      m.s.port.txBufferSize - 1) :
    uartTotalTxBytesFree USE_DMA c m.s = 0 ∧
    ∃ m1 : Machine,
      uartWrite E USE_DMA m ch = some m1 ∧
      m.s.port.txBufferHead ≠ m.s.port.txBufferTail ∧
      m1.s.port.txBuffer[m.s.port.txBufferHead]? = some ch ∧
      m1.s.port.txBufferTail = m.s.port.txBufferTail ∧
      m1.s.port.txBufferHead = m1.s.port.txBufferTail ∧
      isUartTransmitBufferEmpty USE_DMA m1.s = true ∧
      uartTotalTxBytesFree USE_DMA c m1.s = m.s.port.txBufferSize - 1 := by
  obtain ⟨hne, hwrap⟩ := full_head_ne_tail _ _ _ hN hh ht hfull
  have hl : m.s.port.txBufferHead < m.s.port.txBuffer.length := by omega
  have hfree := (uartTotalTxBytesFree_interrupt_free USE_DMA c m.s hdma h32 hh ht)
  refine ⟨by rw [hfree, hfull]; omega, _, uartWrite_eq E USE_DMA m ch hl (by omega), hne, ?_⟩
  simp only [hdma, Bool.false_eq_true, if_false]
  have hdma1 : usesTxDMA USE_DMA (txPushed m.s ch) = false := hdma
  have hhead : (txPushed m.s ch).port.txBufferHead = m.s.port.txBufferTail := hwrap
  have htail : (txPushed m.s ch).port.txBufferTail = m.s.port.txBufferTail := rfl
  have hsize : (txPushed m.s ch).port.txBufferSize = m.s.port.txBufferSize := rfl
  refine ⟨?_, rfl, hwrap, ?_, ?_⟩
  · simp [txPushed, List.getElem?_set_self, hl]
  · simp [isUartTransmitBufferEmpty, hdma1, hhead, htail]
  · have h1 := uartTotalTxBytesFree_interrupt_free USE_DMA c (txPushed m.s ch) hdma1
      (by rw [hsize]; exact h32) (by rw [hsize, hhead]; exact ht) (by rw [hsize, htail]; exact ht)
    rw [h1, hsize, hhead, htail, wrapSub_eq _ _ _ (by omega) (by omega)]
    simp

/-- Witness of C18: size 16, `txBufferHead = 15`, `txBufferTail = 0` (15 bytes
queued).  After one more write the ring reads as empty with 15 bytes free. -/
theorem uartWrite_full_looks_empty_witness :
    uartTotalTxBytesFree false 0 (txPort16 15 0) = 0 ∧
      (uartWrite inertExternals false { s := txPort16 15 0, trace := [] } 88).map
          (fun m1 => (isUartTransmitBufferEmpty false m1.s, uartTotalTxBytesFree false 0 m1.s)) =
        some (true, 15) := by
  obtain ⟨h0, m1, hw, _, _, _, _, he, hf⟩ :=
    uartWrite_full_looks_empty inertExternals false 0 { s := txPort16 15 0, trace := [] } 88
      (by decide) (by decide) (by decide) (by decide) (by decide) (by decide) (by decide)
  refine ⟨h0, ?_⟩
  rw [hw]
  show some (isUartTransmitBufferEmpty false m1.s, uartTotalTxBytesFree false 0 m1.s) = _
  rw [he, hf]
  rfl

/-- C19 (a freshly opened port is empty).  Take that `uartReconfigure` leaves
the buffer indices and `txDMAEmpty` as they are.  When the lookup yields a
port, `uartOpen` returns a port with `rxBufferHead = rxBufferTail = 0` and
`txBufferHead = txBufferTail = 0`, whatever they were before, and with
`txDMAEmpty` true when `USE_DMA` is compiled in.  On it
`isUartTransmitBufferEmpty` is true in both transfer modes; without receive
DMA `uartTotalRxBytesWaiting` is 0; without transmit DMA
`uartTotalTxBytesFree` is `txBufferSize - 1` (as a `uint32_t`). -/
theorem uartOpen_fresh_port_empty (E : Externals) (USE_DMA : Bool) (device : UARTDevice_e)
    (rxCallback rxCallbackData baudRate mode options c : Nat) (s0 : uartPort_t)
    (hlook : E.serialUART device baudRate mode options = some s0)
    (hR : E.reconfigureKeepsQueues) :
    ∃ s1 : uartPort_t,
      (uartOpen E USE_DMA device rxCallback rxCallbackData baudRate mode options).1 = some s1 ∧
      s1.port.rxBufferHead = 0 ∧ s1.port.rxBufferTail = 0 ∧
      s1.port.txBufferHead = 0 ∧ s1.port.txBufferTail = 0 ∧
      (USE_DMA = true → s1.txDMAEmpty = true) ∧
      isUartTransmitBufferEmpty USE_DMA s1 = true ∧
      (usesRxDMA USE_DMA s1 = false → uartTotalRxBytesWaiting USE_DMA c s1 = 0) ∧
      (usesTxDMA USE_DMA s1 = false →
        uartTotalTxBytesFree USE_DMA c s1 = sub32 s1.port.txBufferSize 1 ∧
        (1 ≤ s1.port.txBufferSize → s1.port.txBufferSize < 4294967296 →
          uartTotalTxBytesFree USE_DMA c s1 = s1.port.txBufferSize - 1)) := by
  obtain ⟨pre, ho, h1, h2, h3, h4, h5⟩ : ∃ pre : uartPort_t,
      (uartOpen E USE_DMA device rxCallback rxCallbackData baudRate mode options).1 =
        some (E.uartReconfigure pre) ∧
      pre.port.rxBufferHead = 0 ∧ pre.port.rxBufferTail = 0 ∧
      pre.port.txBufferHead = 0 ∧ pre.port.txBufferTail = 0 ∧
      (USE_DMA = true → pre.txDMAEmpty = true) := by
    simp only [uartOpen, hlook]
    cases USE_DMA
    · exact ⟨_, rfl, rfl, rfl, rfl, rfl, fun h => absurd h (by decide)⟩
    · exact ⟨_, rfl, rfl, rfl, rfl, rfl, fun _ => rfl⟩
  obtain ⟨k1, k2, k3, k4, k5⟩ := hR pre
  rw [h1] at k1
  rw [h2] at k2
  rw [h3] at k3
  rw [h4] at k4
  generalize E.uartReconfigure pre = s1 at ho k1 k2 k3 k4 k5
  have hempty : USE_DMA = true → s1.txDMAEmpty = true := fun h => k5.trans (h5 h)
  refine ⟨s1, ho, k1, k2, k3, k4, hempty, ?_, ?_, ?_⟩
  · by_cases hd : usesTxDMA USE_DMA s1 = true
    · have hu : USE_DMA = true := by
        unfold usesTxDMA at hd
        cases USE_DMA
        · simp at hd
        · rfl
      simp only [isUartTransmitBufferEmpty, hd, if_true]
      exact hempty hu
    · have hd1 : usesTxDMA USE_DMA s1 = false := by simpa using hd
      rw [isUartTransmitBufferEmpty_irq _ _ hd1, k3, k4]
      rfl
  · intro hd
    simp only [uartTotalRxBytesWaiting, hd, Bool.false_eq_true, if_false, k1, k2, ge_iff_le,
      Nat.le_refl, if_true, sub32]
  · intro hd
    have hu : txBytesUsed s1 = 0 := by
      simp only [txBytesUsed, k3, k4, ge_iff_le, Nat.le_refl, if_true, sub32]
    have hf : uartTotalTxBytesFree USE_DMA c s1 = sub32 s1.port.txBufferSize 1 := by
      simp only [uartTotalTxBytesFree, hd, Bool.false_eq_true, if_false, hu, sub32]
      omega
    refine ⟨hf, fun hlo hhi => ?_⟩
    rw [hf]
    simp only [sub32]
    omega

/-- Witness of C19: `oneDeviceExternals` finds for `UARTDEV_1` a port without
DMA of size 16 with stale indices (5, 9, 7, 3).  After `uartOpen` all four
indices are 0, the transmit buffer reads as empty, nothing waits and 15 bytes
are free. -/
theorem uartOpen_fresh_port_empty_witness :
    (uartOpen oneDeviceExternals false UARTDevice_e.UARTDEV_1 11 22 115200 3 0).1.map
        (fun s1 => ([s1.port.rxBufferHead, s1.port.rxBufferTail, s1.port.txBufferHead,
            s1.port.txBufferTail, uartTotalRxBytesWaiting false 0 s1,
            uartTotalTxBytesFree false 0 s1],
          isUartTransmitBufferEmpty false s1)) =
      some ([0, 0, 0, 0, 0, 15], true) := by
  obtain ⟨s1, ho, h1, h2, h3, h4, _, he, hw, hf⟩ :=
    uartOpen_fresh_port_empty oneDeviceExternals false UARTDevice_e.UARTDEV_1 11 22 115200 3 0 0
      (mkPort 16 (List.replicate 16 0) 5 9 16 (List.replicate 16 0) 7 3 none none 0 false)
      (by decide) (fun _ => ⟨rfl, rfl, rfl, rfl, rfl⟩)
  have hsize : s1.port.txBufferSize = 16 := by
    have e : (uartOpen oneDeviceExternals false UARTDevice_e.UARTDEV_1 11 22 115200 3 0).1.map
        (fun s => s.port.txBufferSize) = some 16 := by decide
    rw [ho] at e
    exact Option.some.inj e
  rw [ho]
  show some ([s1.port.rxBufferHead, s1.port.rxBufferTail, s1.port.txBufferHead,
      s1.port.txBufferTail, uartTotalRxBytesWaiting false 0 s1,
      uartTotalTxBytesFree false 0 s1], isUartTransmitBufferEmpty false s1) = _
  rw [h1, h2, h3, h4, he, hw rfl, (hf rfl).1, hsize]
  decide

/-- C20 (reconfiguration keeps the queued data).  `uartSetBaudRate` hands to
`uartReconfigure` the descriptor it was given with only `port.baudRate`
changed, to the argument, and `uartSetMode` the descriptor with only
`port.mode` changed, to the argument: indices, `rxDMAPos`, `txDMAEmpty`, buffer
contents, callback, options and the other one of the two fields are as before.
Each calls `uartReconfigure` exactly once, on that descriptor, and returns what
it leaves.  So `uartTotalRxBytesWaiting` and `uartTotalTxBytesFree` computed
from the descriptor are the same before and after the field update. -/
theorem uartSet_preserves_queues (E : Externals) (USE_DMA : Bool) (c : Nat) (m : Machine)
    (v : Nat) :
    ((uartSetBaudRate E m v).s =
        E.uartReconfigure { m.s with port := { m.s.port with baudRate := v } } ∧
      (uartSetBaudRate E m v).trace =
        m.trace ++ [Event.store Field.baudRate v,
          Event.uartReconfigure { m.s with port := { m.s.port with baudRate := v } }] ∧
      [Event.store Field.baudRate v,
          Event.uartReconfigure { m.s with port := { m.s.port with baudRate := v } }].countP
        Event.isReconfigure = 1 ∧
      uartTotalRxBytesWaiting USE_DMA c { m.s with port := { m.s.port with baudRate := v } } =
        uartTotalRxBytesWaiting USE_DMA c m.s ∧
      uartTotalTxBytesFree USE_DMA c { m.s with port := { m.s.port with baudRate := v } } =
        uartTotalTxBytesFree USE_DMA c m.s) ∧
    ((uartSetMode E m v).s =
        E.uartReconfigure { m.s with port := { m.s.port with mode := v } } ∧
      (uartSetMode E m v).trace =
        m.trace ++ [Event.store Field.mode v,
          Event.uartReconfigure { m.s with port := { m.s.port with mode := v } }] ∧
      [Event.store Field.mode v,
          Event.uartReconfigure { m.s with port := { m.s.port with mode := v } }].countP
        Event.isReconfigure = 1 ∧
      uartTotalRxBytesWaiting USE_DMA c { m.s with port := { m.s.port with mode := v } } =
        uartTotalRxBytesWaiting USE_DMA c m.s ∧
      uartTotalTxBytesFree USE_DMA c { m.s with port := { m.s.port with mode := v } } =
        uartTotalTxBytesFree USE_DMA c m.s) := by
  refine ⟨⟨rfl, ?_, rfl, rfl, rfl⟩, ⟨rfl, ?_, rfl, rfl, rfl⟩⟩
  · show (m.trace ++ [_]) ++ [_] = _
    rw [List.append_assoc]
    rfl
  · show (m.trace ++ [_]) ++ [_] = _
    rw [List.append_assoc]
    rfl

end SerialUart
